import Mathlib

/-!
Verification of the report-generation engine of `error-to-md` (src/index.js).

The JavaScript source is shallowly embedded: JSON-like data is the inductive
`JsonValue`, JS runtime values reaching the error parameter are `JSVal`
(which adds `undefined` and models property access, including the `TypeError`
thrown on `null`/`undefined` receivers), and every function of src/index.js
that the claims mention (`cleanObject`, `generateErrorId`, `formatSeverity`,
theme lookup, `errorToMarkdown`) is translated definition-by-definition.
Nondeterministic reads (clock, process counters) are supplied through an
explicit `Env` record; everything else is computed exactly as the source does.
String operations follow JavaScript semantics on code points: `toLowerCase`
and `toUpperCase` are modelled on ASCII, `String.prototype.includes` is
substring containment, `split('\n')` is newline splitting.
-/

namespace ErrorToMd

/-- Tests whether `needle` occurs at the start of `hay` (character lists). -/
def charsStartWith (needle hay : List Char) : Bool :=
  match needle, hay with
  | [], _ => true
  | _ :: _, [] => false
  | a :: as, b :: bs => a == b && charsStartWith as bs

/-- Tests whether `needle` occurs contiguously anywhere inside `hay`;
this is the semantics of JavaScript `String.prototype.includes`. -/
def charsContain (needle : List Char) : List Char → Bool
  | [] => charsStartWith needle []
  | b :: bs => charsStartWith needle (b :: bs) || charsContain needle bs

/-- JavaScript `toLowerCase` (ASCII range), as a character list. -/
def lowerChars (s : String) : List Char :=
  s.toList.map Char.toLower

/-- JavaScript `str.split('\n')` on character lists: splitting an empty
string yields one empty piece, and every newline separates two pieces. -/
def splitNl : List Char → List (List Char)
  | [] => [[]]
  | c :: rest =>
    if c = '\n' then [] :: splitNl rest
    else
      match splitNl rest with
      | l :: ls => (c :: l) :: ls
      | [] => [[c]]

/-- JavaScript `str.split('\n')` producing strings. -/
def jsSplitNl (s : String) : List String :=
  (splitNl s.toList).map List.asString

/-- Repeated space characters, for pretty-printed JSON indentation. -/
def spaces (n : Nat) : List Char :=
  List.replicate n ' '

/-- JSON-like data: the values `JSON.parse` can produce.  Numbers are
modelled as integers (the reports under verification only serialize
integer-valued numbers). -/
inductive JsonValue where
  | null
  | bool (b : Bool)
  | num (n : Int)
  | str (s : String)
  | arr (elems : List JsonValue)
  | obj (fields : List (String × JsonValue))
  deriving Repr

/-- JavaScript truthiness of a JSON-like value (`NaN` is not representable
here; `0`, `''`, `false` and `null` are falsy, arrays and objects are
always truthy). -/
def jsTruthy : JsonValue → Bool
  | .null => false
  | .bool b => b
  | .num n => n != 0
  | .str s => s != ""
  | .arr _ => true
  | .obj _ => true

/-- JavaScript `typeof v === 'object'` for a JSON-like value; note that
`typeof null` is `'object'`. -/
def isObjectType : JsonValue → Bool
  | .null => true
  | .arr _ => true
  | .obj _ => true
  | _ => false

/-- Key test of the redaction replacer, from src/index.js lines 83-85:
`redactKeys.some(redactKey => key.toLowerCase().includes(redactKey.toLowerCase()))`. -/
def keyMatches (redactKeys : List String) (key : String) : Bool :=
  redactKeys.any fun redactKey => charsContain (lowerChars redactKey) (lowerChars key)

mutual
/-- The replacer of `JSON.stringify(obj, replacer)` in src/index.js lines
81-89, applied the way `stringify` applies it: top-down, starting at the
root with key `""`, visiting object members under their key and array
elements under their decimal index, and never descending into a value that
was just replaced by `'[REDACTED]'`.  `JSON.parse` of the resulting text
rebuilds exactly this tree, so `applyRedact rk "" v` is the `cleaned`
value of line 81. -/
def applyRedact (rk : List String) (key : String) : JsonValue → JsonValue
  | .obj fields =>
    if keyMatches rk key then .str "[REDACTED]" else .obj (redactFields rk fields)
  | .arr elems =>
    if keyMatches rk key then .str "[REDACTED]" else .arr (redactElems rk 0 elems)
  | v => if keyMatches rk key then .str "[REDACTED]" else v

/-- Member traversal of the redaction replacer (object properties are
visited under their own key). -/
def redactFields (rk : List String) : List (String × JsonValue) → List (String × JsonValue)
  | [] => []
  | (k, v) :: rest => (k, applyRedact rk k v) :: redactFields rk rest

/-- Element traversal of the redaction replacer (array elements are
visited under their decimal index, starting at `i`). -/
def redactElems (rk : List String) (i : Nat) : List JsonValue → List JsonValue
  | [] => []
  | v :: rest => applyRedact rk (toString i) v :: redactElems rk (i + 1) rest
end

/-- Hexadecimal digit characters, lowercase (as produced by Node's
`digest('hex')`). -/
def hexDigitChar (n : Nat) : Char :=
  "0123456789abcdef".toList.getD (n % 16) '0'

/-- Escaping of one character inside a JSON string literal, following
`JSON.stringify`. -/
def escapeChar (c : Char) : List Char :=
  if c = '"' then ['\\', '"']
  else if c = '\\' then ['\\', '\\']
  else if c = '\n' then ['\\', 'n']
  else if c = '\t' then ['\\', 't']
  else if c = '\r' then ['\\', 'r']
  else if c.toNat = 8 then ['\\', 'b']
  else if c.toNat = 12 then ['\\', 'f']
  else if c.toNat < 32 then ['\\', 'u', '0', '0', hexDigitChar (c.toNat / 16), hexDigitChar c.toNat]
  else [c]

/-- A JSON string literal: quote, escaped characters, quote. -/
def quoteChars (s : String) : List Char :=
  '"' :: (s.toList.flatMap escapeChar) ++ ['"']

mutual
/-- Compact JSON serialization, `JSON.stringify(v)` (no indentation). -/
def cser : JsonValue → List Char
  | .null => 'n' :: 'u' :: 'l' :: ['l']
  | .bool true => 't' :: 'r' :: 'u' :: ['e']
  | .bool false => 'f' :: 'a' :: 'l' :: 's' :: ['e']
  | .num n => (toString n).toList
  | .str s => quoteChars s
  | .arr [] => '[' :: [']']
  | .arr (v :: vs) => '[' :: (cser v ++ cserElems vs) ++ [']']
  | .obj [] => '\x7b' :: ['\x7d']
  | .obj ((k, v) :: fs) =>
    '\x7b' :: (quoteChars k ++ ':' :: cser v ++ cserFields fs) ++ ['\x7d']

/-- Compact serialization of the remaining array elements. -/
def cserElems : List JsonValue → List Char
  | [] => []
  | v :: vs => ',' :: cser v ++ cserElems vs

/-- Compact serialization of the remaining object members. -/
def cserFields : List (String × JsonValue) → List Char
  | [] => []
  | (k, v) :: fs => ',' :: quoteChars k ++ ':' :: cser v ++ cserFields fs
end

mutual
/-- Pretty-printed JSON serialization, `JSON.stringify(v, null, 2)`:
two-space indentation, `": "` after member names, members separated by
`",\n" ++ indent`; `d` is the current nesting depth. -/
def pser (d : Nat) : JsonValue → List Char
  | .arr [] => '[' :: [']']
  | .arr (v :: vs) =>
    '[' :: '\n' :: spaces (2 * (d + 1)) ++ pser (d + 1) v ++ pserElems (d + 1) vs
      ++ '\n' :: spaces (2 * d) ++ [']']
  | .obj [] => '\x7b' :: ['\x7d']
  | .obj ((k, v) :: fs) =>
    '\x7b' :: '\n' :: spaces (2 * (d + 1)) ++ quoteChars k ++ ':' :: ' ' :: pser (d + 1) v
      ++ pserFields (d + 1) fs ++ '\n' :: spaces (2 * d) ++ ['\x7d']
  | v => cser v

/-- Pretty serialization of the remaining array elements at depth `d`. -/
def pserElems (d : Nat) : List JsonValue → List Char
  | [] => []
  | v :: vs => ',' :: '\n' :: spaces (2 * d) ++ pser d v ++ pserElems d vs

/-- Pretty serialization of the remaining object members at depth `d`. -/
def pserFields (d : Nat) : List (String × JsonValue) → List Char
  | [] => []
  | (k, v) :: fs =>
    ',' :: '\n' :: spaces (2 * d) ++ quoteChars k ++ ':' :: ' ' :: pser d v ++ pserFields d fs
end

/-- The truncation marker of src/index.js line 93. -/
def truncationMarker : String := "... [TRUNCATED]"

/-- Translation of `cleanObject(obj, redactKeys, maxSize)`, src/index.js
lines 78-97.  Non-objects (and the falsy `null`) are returned unchanged;
otherwise the tree is redacted through the `JSON.stringify` replacer, and
if the pretty-printed serialization of the cleaned tree is longer than
`maxSize` the function returns (as a JS string) the first `maxSize`
characters of the compact serialization followed by `'... [TRUNCATED]'`. -/
def cleanObject (obj : JsonValue) (redactKeys : List String := []) (maxSize : Nat := 1000) :
    JsonValue :=
  if !jsTruthy obj || !isObjectType obj then obj
  else
    let cleaned := applyRedact redactKeys "" obj
    let jsonString := pser 0 cleaned
    if jsonString.length > maxSize then
      .str (((cser cleaned).take maxSize).asString ++ truncationMarker)
    else cleaned

example :
    cleanObject (.obj [("Password1", .str "hunter2"), ("memo", .num 3)])
        ["password", "token"] 1000 =
      .obj [("Password1", .str "[REDACTED]"), ("memo", .num 3)] := rfl

example : cleanObject (.str "x") ["x"] 1000 = .str "x" := rfl

example :
    cleanObject (.obj [("a", .num 1)]) [] 5 =
      .str "\x7b\"a\":... [TRUNCATED]" := rfl

/-- Subterm occurrence in a JSON tree: `Occurs v t` holds when `v` appears
somewhere inside `t`, including `t` itself. -/
inductive Occurs : JsonValue → JsonValue → Prop where
  | refl (v : JsonValue) : Occurs v v
  | arrMem {v x : JsonValue} {xs : List JsonValue} :
      Occurs v x → x ∈ xs → Occurs v (.arr xs)
  | objMem {v w : JsonValue} {k : String} {fs : List (String × JsonValue)} :
      Occurs v w → (k, w) ∈ fs → Occurs v (.obj fs)

/-- Occurrence along a path that never crosses a key matched by the
deny-list `rk`: array elements may be entered only under a non-matching
decimal index, object members only under a non-matching key.  A value with
such an occurrence in the input survives redaction untouched along that
path. -/
inductive CleanOcc (rk : List String) : JsonValue → JsonValue → Prop where
  | refl (v : JsonValue) : CleanOcc rk v v
  | arrMem {v x : JsonValue} {xs : List JsonValue} {i : Nat} :
      CleanOcc rk v x → xs.get? i = some x → keyMatches rk (toString i) = false →
      CleanOcc rk v (.arr xs)
  | objMem {v w : JsonValue} {k : String} {fs : List (String × JsonValue)} :
      CleanOcc rk v w → (k, w) ∈ fs → keyMatches rk k = false → CleanOcc rk v (.obj fs)

/-- Inverting an occurrence inside a string scalar: only reflexivity fits. -/
theorem occurs_scalar {v : JsonValue} {s : String} (h : Occurs v (.str s)) : v = .str s := by
  cases h
  rfl

/-- A matched key makes the replacer return the marker regardless of the
value (and without recursing into it). -/
theorem applyRedact_matched (rk : List String) (key : String) (v : JsonValue)
    (h : keyMatches rk key = true) : applyRedact rk key v = .str "[REDACTED]" := by
  cases v <;> simp [applyRedact, h]

/-- An unmatched key lets the replacer recurse into object members. -/
theorem applyRedact_obj_unmatched (rk : List String) (key : String)
    (fields : List (String × JsonValue)) (h : keyMatches rk key = false) :
    applyRedact rk key (.obj fields) = .obj (redactFields rk fields) := by
  simp [applyRedact, h]

/-- An unmatched key lets the replacer recurse into array elements. -/
theorem applyRedact_arr_unmatched (rk : List String) (key : String)
    (elems : List JsonValue) (h : keyMatches rk key = false) :
    applyRedact rk key (.arr elems) = .arr (redactElems rk 0 elems) := by
  simp [applyRedact, h]

/-- Membership in a redacted member list comes from membership in the
original list, under the same key. -/
theorem mem_redactFields {rk : List String} {l : List (String × JsonValue)} {k : String}
    {w : JsonValue} (h : (k, w) ∈ redactFields rk l) :
    ∃ v₀, (k, v₀) ∈ l ∧ w = applyRedact rk k v₀ := by
  induction l with
  | nil => simp [redactFields] at h
  | cons p rest ih =>
    obtain ⟨k0, v0⟩ := p
    rw [redactFields] at h
    rcases List.mem_cons.mp h with heq | hmem
    · rw [Prod.mk.injEq] at heq
      obtain ⟨rfl, rfl⟩ := heq
      exact ⟨v0, List.mem_cons_self .., rfl⟩
    · obtain ⟨v₀, hv, hw⟩ := ih hmem
      exact ⟨v₀, List.mem_cons_of_mem _ hv, hw⟩

/-- Membership in a redacted element list comes from an indexed element of
the original list, redacted under its decimal index. -/
theorem mem_redactElems {rk : List String} {l : List JsonValue} {x : JsonValue} :
    ∀ {i : Nat}, x ∈ redactElems rk i l →
      ∃ j v₀, l.get? j = some v₀ ∧ x = applyRedact rk (toString (i + j)) v₀ := by
  induction l with
  | nil => intro i h; simp [redactElems] at h
  | cons v0 rest ih =>
    intro i h
    rw [redactElems] at h
    rcases List.mem_cons.mp h with heq | hmem
    · exact ⟨0, v0, rfl, by simpa using heq⟩
    · obtain ⟨j, v₀, hj, hx⟩ := ih hmem
      refine ⟨j + 1, v₀, by simpa using hj, ?_⟩
      rw [show i + (j + 1) = (i + 1) + j by omega]
      exact hx

/-- In a redacted member list, every member whose key matches the deny-list
carries the literal marker. -/
theorem mem_redactFields_matched {rk : List String} {l : List (String × JsonValue)}
    {k : String} {w : JsonValue} (h : (k, w) ∈ redactFields rk l)
    (hk : keyMatches rk k = true) : w = .str "[REDACTED]" := by
  obtain ⟨v₀, _, rfl⟩ := mem_redactFields h
  exact applyRedact_matched rk k v₀ hk

/-- In a redacted element list, every element whose decimal index matches
the deny-list carries the literal marker. -/
theorem mem_redactElems_matched {rk : List String} {l : List JsonValue} {x : JsonValue}
    {i : Nat} (h : x ∈ redactElems rk i l)
    (hk : ∀ j : Nat, keyMatches rk (toString j) = true) : x = .str "[REDACTED]" := by
  obtain ⟨j, v₀, _, rfl⟩ := mem_redactElems h
  exact applyRedact_matched rk (toString (i + j)) v₀ (hk _)

mutual
/-- Deep redaction, part 1: in the output of the replacer, every object
member whose key matches the deny-list carries the literal marker, at any
nesting depth. -/
theorem matched_in_applyRedact (rk : List String) (key : String) :
    ∀ (t : JsonValue) (fs : List (String × JsonValue)) (k : String) (w : JsonValue),
      Occurs (.obj fs) (applyRedact rk key t) → (k, w) ∈ fs → keyMatches rk k = true →
      w = .str "[REDACTED]"
  | t, fs, k, w, hocc, hmem, hk => by
    by_cases hkey : keyMatches rk key = true
    · rw [applyRedact_matched rk key t hkey] at hocc
      exact absurd (occurs_scalar hocc) (by simp)
    · rw [Bool.not_eq_true] at hkey
      cases t with
      | null =>
        rw [show applyRedact rk key .null = .null by simp [applyRedact, hkey]] at hocc
        cases hocc
      | bool b =>
        rw [show applyRedact rk key (.bool b) = .bool b by simp [applyRedact, hkey]] at hocc
        cases hocc
      | num n =>
        rw [show applyRedact rk key (.num n) = .num n by simp [applyRedact, hkey]] at hocc
        cases hocc
      | str s =>
        rw [show applyRedact rk key (.str s) = .str s by simp [applyRedact, hkey]] at hocc
        exact absurd (occurs_scalar hocc) (by simp)
      | arr elems =>
        rw [applyRedact_arr_unmatched rk key elems hkey] at hocc
        cases hocc with
        | arrMem h1 h2 => exact matched_in_redactElems rk 0 elems fs k w _ h2 h1 hmem hk
      | obj fields =>
        rw [applyRedact_obj_unmatched rk key fields hkey] at hocc
        cases hocc with
        | refl => exact mem_redactFields_matched hmem hk
        | objMem h1 h2 =>
          exact matched_in_redactFields rk fields fs k w _ _ h2 h1 hmem hk
termination_by t => sizeOf t

/-- Deep redaction, part 1, member-list case. -/
theorem matched_in_redactFields (rk : List String) :
    ∀ (l : List (String × JsonValue)) (fs : List (String × JsonValue)) (k : String)
      (w : JsonValue) (k' : String) (w' : JsonValue),
      (k', w') ∈ redactFields rk l → Occurs (.obj fs) w' → (k, w) ∈ fs →
      keyMatches rk k = true → w = .str "[REDACTED]"
  | [], _, _, _, _, _, hmem', _, _, _ => by simp [redactFields] at hmem'
  | (k0, v0) :: rest, fs, k, w, k', w', hmem', hocc, hmem, hk => by
    rw [redactFields] at hmem'
    rcases List.mem_cons.mp hmem' with heq | hmem2
    · have hw' : w' = applyRedact rk k0 v0 := congrArg Prod.snd heq
      rw [hw'] at hocc
      exact matched_in_applyRedact rk k0 v0 fs k w hocc hmem hk
    · exact matched_in_redactFields rk rest fs k w k' w' hmem2 hocc hmem hk
termination_by l => sizeOf l

/-- Deep redaction, part 1, element-list case. -/
theorem matched_in_redactElems (rk : List String) (i : Nat) :
    ∀ (l : List JsonValue) (fs : List (String × JsonValue)) (k : String) (w : JsonValue)
      (x : JsonValue),
      x ∈ redactElems rk i l → Occurs (.obj fs) x → (k, w) ∈ fs →
      keyMatches rk k = true → w = .str "[REDACTED]"
  | [], _, _, _, _, hmem', _, _, _ => by simp [redactElems] at hmem'
  | v0 :: rest, fs, k, w, x, hmem', hocc, hmem, hk => by
    rw [redactElems] at hmem'
    rcases List.mem_cons.mp hmem' with heq | hmem2
    · subst heq
      exact matched_in_applyRedact rk (toString i) v0 fs k w hocc hmem hk
    · exact matched_in_redactElems rk (i + 1) rest fs k w x hmem2 hocc hmem hk
termination_by l => sizeOf l
end

mutual
/-- Either the replacer leaves a tree untouched, or the literal marker
occurs somewhere in its output. -/
theorem redact_id_or_marker (rk : List String) (key : String) (t : JsonValue) :
    applyRedact rk key t = t ∨ Occurs (.str "[REDACTED]") (applyRedact rk key t) := by
    by_cases hkey : keyMatches rk key = true
    · rw [applyRedact_matched rk key t hkey]
      exact Or.inr (Occurs.refl _)
    · rw [Bool.not_eq_true] at hkey
      cases t with
      | null => left; simp [applyRedact, hkey]
      | bool b => left; simp [applyRedact, hkey]
      | num n => left; simp [applyRedact, hkey]
      | str s => left; simp [applyRedact, hkey]
      | arr elems =>
        rw [applyRedact_arr_unmatched rk key elems hkey]
        rcases redactElems_id_or_marker rk 0 elems with hid | ⟨x, hx, hocc⟩
        · left; rw [hid]
        · right; exact Occurs.arrMem hocc hx
      | obj fields =>
        rw [applyRedact_obj_unmatched rk key fields hkey]
        rcases redactFields_id_or_marker rk fields with hid | ⟨kk, ww, hmem, hocc⟩
        · left; rw [hid]
        · right; exact Occurs.objMem hocc hmem
termination_by sizeOf t

/-- Member-list case of `redact_id_or_marker`. -/
theorem redactFields_id_or_marker (rk : List String) :
    ∀ (l : List (String × JsonValue)),
      redactFields rk l = l ∨
        ∃ k w, (k, w) ∈ redactFields rk l ∧ Occurs (.str "[REDACTED]") w
  | [] => by left; rw [redactFields]
  | (k0, v0) :: rest => by
    rw [redactFields]
    rcases redact_id_or_marker rk k0 v0 with hid0 | hocc0
    · rcases redactFields_id_or_marker rk rest with hidr | ⟨kk, ww, hmem, hocc⟩
      · left; rw [hid0, hidr]
      · right; exact ⟨kk, ww, List.mem_cons_of_mem _ hmem, hocc⟩
    · right; exact ⟨k0, applyRedact rk k0 v0, List.mem_cons_self .., hocc0⟩
termination_by l => sizeOf l

/-- Element-list case of `redact_id_or_marker`. -/
theorem redactElems_id_or_marker (rk : List String) (i : Nat) :
    ∀ (l : List JsonValue),
      redactElems rk i l = l ∨ ∃ x ∈ redactElems rk i l, Occurs (.str "[REDACTED]") x
  | [] => by left; rw [redactElems]
  | v0 :: rest => by
    rw [redactElems]
    rcases redact_id_or_marker rk (toString i) v0 with hid0 | hocc0
    · rcases redactElems_id_or_marker rk (i + 1) rest with hidr | ⟨x, hx, hocc⟩
      · left; rw [hid0, hidr]
      · right; exact ⟨x, List.mem_cons_of_mem _ hx, hocc⟩
    · right; exact ⟨applyRedact rk (toString i) v0, List.mem_cons_self .., hocc0⟩
termination_by l => sizeOf l
end

mutual
/-- Deep redaction, part 2: every subtree of the replacer's output either
contains the literal marker or occurs in the input along a path that never
crosses a matched key.  In particular a value whose only occurrences in
the input sit below matched keys, and which does not itself contain the
marker, cannot occur in the output. -/
theorem occurs_redact (rk : List String) (key : String) (t v : JsonValue)
    (hocc : Occurs v (applyRedact rk key t)) :
    Occurs (.str "[REDACTED]") v ∨ CleanOcc rk v t := by
    by_cases hkey : keyMatches rk key = true
    · rw [applyRedact_matched rk key t hkey] at hocc
      rw [occurs_scalar hocc]
      exact Or.inl (Occurs.refl _)
    · rw [Bool.not_eq_true] at hkey
      cases t with
      | null =>
        rw [show applyRedact rk key .null = .null by simp [applyRedact, hkey]] at hocc
        cases hocc
        exact Or.inr (CleanOcc.refl _)
      | bool b =>
        rw [show applyRedact rk key (.bool b) = .bool b by simp [applyRedact, hkey]] at hocc
        cases hocc
        exact Or.inr (CleanOcc.refl _)
      | num n =>
        rw [show applyRedact rk key (.num n) = .num n by simp [applyRedact, hkey]] at hocc
        cases hocc
        exact Or.inr (CleanOcc.refl _)
      | str s =>
        rw [show applyRedact rk key (.str s) = .str s by simp [applyRedact, hkey]] at hocc
        rw [occurs_scalar hocc]
        exact Or.inr (CleanOcc.refl _)
      | arr elems =>
        rw [applyRedact_arr_unmatched rk key elems hkey] at hocc
        cases hocc with
        | refl =>
          rcases redactElems_id_or_marker rk 0 elems with hid | ⟨x, hx, hocc2⟩
          · rw [hid]
            exact Or.inr (CleanOcc.refl _)
          · exact Or.inl (Occurs.arrMem hocc2 hx)
        | arrMem h1 h2 =>
          rcases occurs_redactElems rk 0 elems v _ h2 h1 with hm | ⟨j, y, hj, hkf, hc⟩
          · exact Or.inl hm
          · refine Or.inr (CleanOcc.arrMem hc hj ?_)
            simpa using hkf
      | obj fields =>
        rw [applyRedact_obj_unmatched rk key fields hkey] at hocc
        cases hocc with
        | refl =>
          rcases redactFields_id_or_marker rk fields with hid | ⟨kk, ww, hmem, hocc2⟩
          · rw [hid]
            exact Or.inr (CleanOcc.refl _)
          · exact Or.inl (Occurs.objMem hocc2 hmem)
        | objMem h1 h2 =>
          rcases occurs_redactFields rk fields v _ _ h2 h1 with hm | ⟨k, w, hmem, hkf, hc⟩
          · exact Or.inl hm
          · exact Or.inr (CleanOcc.objMem hc hmem hkf)
termination_by sizeOf t

/-- Member-list case of `occurs_redact`. -/
theorem occurs_redactFields (rk : List String) :
    ∀ (l : List (String × JsonValue)) (v : JsonValue) (k' : String) (w' : JsonValue),
      (k', w') ∈ redactFields rk l → Occurs v w' →
      Occurs (.str "[REDACTED]") v ∨
        ∃ k w, (k, w) ∈ l ∧ keyMatches rk k = false ∧ CleanOcc rk v w
  | [], _, _, _, hmem', _ => by simp [redactFields] at hmem'
  | (k0, v0) :: rest, v, k', w', hmem', hocc => by
    rw [redactFields] at hmem'
    rcases List.mem_cons.mp hmem' with heq | hmem2
    · have hw' : w' = applyRedact rk k0 v0 := congrArg Prod.snd heq
      rw [hw'] at hocc
      by_cases hk0 : keyMatches rk k0 = true
      · rw [applyRedact_matched rk k0 v0 hk0] at hocc
        rw [occurs_scalar hocc]
        exact Or.inl (Occurs.refl _)
      · rw [Bool.not_eq_true] at hk0
        rcases occurs_redact rk k0 v0 v hocc with hm | hc
        · exact Or.inl hm
        · exact Or.inr ⟨k0, v0, List.mem_cons_self .., hk0, hc⟩
    · rcases occurs_redactFields rk rest v k' w' hmem2 hocc with hm | ⟨k, w, hmem, hkf, hc⟩
      · exact Or.inl hm
      · exact Or.inr ⟨k, w, List.mem_cons_of_mem _ hmem, hkf, hc⟩
termination_by l => sizeOf l

/-- Element-list case of `occurs_redact`. -/
theorem occurs_redactElems (rk : List String) (i : Nat) :
    ∀ (l : List JsonValue) (v x : JsonValue),
      x ∈ redactElems rk i l → Occurs v x →
      Occurs (.str "[REDACTED]") v ∨
        ∃ j y, l.get? j = some y ∧ keyMatches rk (toString (i + j)) = false ∧ CleanOcc rk v y
  | [], _, _, hmem', _ => by simp [redactElems] at hmem'
  | v0 :: rest, v, x, hmem', hocc => by
    rw [redactElems] at hmem'
    rcases List.mem_cons.mp hmem' with heq | hmem2
    · subst heq
      by_cases hk0 : keyMatches rk (toString i) = true
      · rw [applyRedact_matched rk (toString i) v0 hk0] at hocc
        rw [occurs_scalar hocc]
        exact Or.inl (Occurs.refl _)
      · rw [Bool.not_eq_true] at hk0
        rcases occurs_redact rk (toString i) v0 v hocc with hm | hc
        · exact Or.inl hm
        · refine Or.inr ⟨0, v0, rfl, ?_, hc⟩
          simpa using hk0
    · rcases occurs_redactElems rk (i + 1) rest v x hmem2 hocc with hm | ⟨j, y, hj, hkf, hc⟩
      · exact Or.inl hm
      · refine Or.inr ⟨j + 1, y, by simpa using hj, ?_, hc⟩
        rw [show i + (j + 1) = (i + 1) + j by omega]
        exact hkf
termination_by l => sizeOf l
end

/-- On falsy or non-object input, `cleanObject` is the identity (src/index.js
line 79). -/
theorem cleanObject_not_object (obj : JsonValue) (rk : List String) (n : Nat)
    (h : isObjectType obj = false ∨ jsTruthy obj = false) : cleanObject obj rk n = obj := by
  unfold cleanObject
  rcases h with h | h <;> simp [h]

/-- On truthy object input, `cleanObject` redacts and then either truncates
or returns the cleaned tree (src/index.js lines 81-96). -/
theorem cleanObject_object (obj : JsonValue) (rk : List String) (n : Nat)
    (h1 : isObjectType obj = true) (h2 : jsTruthy obj = true) :
    cleanObject obj rk n =
      if (pser 0 (applyRedact rk "" obj)).length > n then
        .str (((cser (applyRedact rk "" obj)).take n).asString ++ truncationMarker)
      else applyRedact rk "" obj := by
  unfold cleanObject
  simp [h1, h2]

mutual
/-- The compact JSON serialization is never longer than the pretty-printed
one (the latter only inserts newlines and indentation). -/
theorem cser_length_le_pser (d : Nat) :
    ∀ (v : JsonValue), (cser v).length ≤ (pser d v).length
  | .null => by simp [pser]
  | .bool b => by simp [pser]
  | .num n => by simp [pser]
  | .str s => by simp [pser]
  | .arr [] => by simp [pser, cser]
  | .arr (v :: vs) => by
    have h1 := cser_length_le_pser (d + 1) v
    have h2 := cserElems_length_le_pserElems (d + 1) vs
    simp only [cser, pser, List.length_append, List.length_cons, spaces,
      List.length_replicate]
    omega
  | .obj [] => by simp [pser, cser]
  | .obj ((k, v) :: fs) => by
    have h1 := cser_length_le_pser (d + 1) v
    have h2 := cserFields_length_le_pserFields (d + 1) fs
    simp only [cser, pser, List.length_append, List.length_cons, spaces,
      List.length_replicate]
    omega
termination_by v => sizeOf v

/-- Element-list case of `cser_length_le_pser`. -/
theorem cserElems_length_le_pserElems (d : Nat) :
    ∀ (l : List JsonValue), (cserElems l).length ≤ (pserElems d l).length
  | [] => by simp [cserElems, pserElems]
  | v :: vs => by
    have h1 := cser_length_le_pser d v
    have h2 := cserElems_length_le_pserElems d vs
    simp only [cserElems, pserElems, List.length_append, List.length_cons, spaces,
      List.length_replicate]
    omega
termination_by l => sizeOf l

/-- Member-list case of `cser_length_le_pser`. -/
theorem cserFields_length_le_pserFields (d : Nat) :
    ∀ (l : List (String × JsonValue)), (cserFields l).length ≤ (pserFields d l).length
  | [] => by simp [cserFields, pserFields]
  | (k, v) :: fs => by
    have h1 := cser_length_le_pser d v
    have h2 := cserFields_length_le_pserFields d fs
    simp only [cserFields, pserFields, List.length_append, List.length_cons, spaces,
      List.length_replicate]
    omega
termination_by l => sizeOf l
end

/-- C2 counterexample: as stated, the claim asserts that the original value
of a matched key does not appear anywhere in the output; for
`{password: "secret123", memo: "secret123"}` with deny-list `["password"]`
the key `password` matches and holds `"secret123"`, yet `"secret123"` still
occurs in `cleanObject`'s output (under the unmatched key `memo`). -/
theorem redacted_value_reappears :
    keyMatches ["password"] "password" = true ∧
    ("password", JsonValue.str "secret123") ∈
      [("password", JsonValue.str "secret123"), ("memo", JsonValue.str "secret123")] ∧
    Occurs (.str "secret123")
      (cleanObject (.obj [("password", .str "secret123"), ("memo", .str "secret123")])
        ["password"] 1000) := by
  refine ⟨rfl, List.mem_cons_self .., ?_⟩
  rw [show cleanObject
        (.obj [("password", .str "secret123"), ("memo", .str "secret123")]) ["password"] 1000 =
      .obj [("password", .str "[REDACTED]"), ("memo", .str "secret123")] from rfl]
  exact Occurs.objMem (Occurs.refl _) (List.mem_cons_of_mem _ (List.mem_cons_self ..))

/-- C2 (amended): redaction replaces the value of every mapping key that
matches a deny-list entry with the literal string `[REDACTED]` at every
nesting depth and does not recurse into the redacted value — both in the
cleaned tree and in every structural output of `cleanObject`; and every
value occurring in the output either contains the marker or occurs in the
input along a path free of matched keys, so the original value of a
matched key can reappear in the output only where the input also held it
at an unmatched position. -/
theorem cleanObject_redacts_matched_keys :
    (∀ (rk : List String) (key : String) (t : JsonValue) (fs : List (String × JsonValue))
        (k : String) (w : JsonValue),
        Occurs (.obj fs) (applyRedact rk key t) → (k, w) ∈ fs →
        keyMatches rk k = true → w = .str "[REDACTED]") ∧
    (∀ (rk : List String) (obj : JsonValue) (n : Nat) (fs : List (String × JsonValue))
        (k : String) (w : JsonValue),
        Occurs (.obj fs) (cleanObject obj rk n) → (k, w) ∈ fs →
        keyMatches rk k = true → w = .str "[REDACTED]") ∧
    (∀ (rk : List String) (t v : JsonValue),
        Occurs v (applyRedact rk "" t) →
        Occurs (.str "[REDACTED]") v ∨ CleanOcc rk v t) := by
  refine ⟨fun rk key t fs k w => matched_in_applyRedact rk key t fs k w, ?_,
    fun rk t v => occurs_redact rk "" t v⟩
  intro rk obj n fs k w hocc hmem hk
  have hcase : isObjectType obj = false ∨ jsTruthy obj = false ∨
      (isObjectType obj = true ∧ jsTruthy obj = true) := by
    cases obj <;> simp [isObjectType, jsTruthy]
  rcases hcase with h | h | ⟨h1, h2⟩
  · rw [cleanObject_not_object obj rk n (Or.inl h)] at hocc
    cases obj with
    | null => cases hocc
    | bool b => cases hocc
    | num m => cases hocc
    | str s => exact absurd (occurs_scalar hocc) (by simp)
    | arr elems => simp [isObjectType] at h
    | obj fields => simp [isObjectType] at h
  · rw [cleanObject_not_object obj rk n (Or.inr h)] at hocc
    cases obj with
    | null => cases hocc
    | bool b => cases hocc
    | num m => cases hocc
    | str s => exact absurd (occurs_scalar hocc) (by simp)
    | arr elems => simp [jsTruthy] at h
    | obj fields => simp [jsTruthy] at h
  · rw [cleanObject_object obj rk n h1 h2] at hocc
    by_cases hlen : (pser 0 (applyRedact rk "" obj)).length > n
    · rw [if_pos hlen] at hocc
      exact absurd (occurs_scalar hocc) (by simp)
    · rw [if_neg hlen] at hocc
      exact matched_in_applyRedact rk "" obj fs k w hocc hmem hk

/-- C2 witness: the amended theorem applied at a concrete redacted tree;
its hypotheses (an occurrence in the output, membership of the matched
member, and the key match) all hold at this input. -/
theorem cleanObject_redacts_matched_keys_witness :
    Occurs (.obj [("token", JsonValue.str "[REDACTED]")])
      (cleanObject (.obj [("token", .str "tok123")]) ["token"] 1000) ∧
    ("token", JsonValue.str "[REDACTED]") ∈ [("token", JsonValue.str "[REDACTED]")] ∧
    keyMatches ["token"] "token" = true ∧
    JsonValue.str "[REDACTED]" = JsonValue.str "[REDACTED]" := by
  have hocc : Occurs (.obj [("token", JsonValue.str "[REDACTED]")])
      (cleanObject (.obj [("token", .str "tok123")]) ["token"] 1000) := by
    rw [show cleanObject (.obj [("token", .str "tok123")]) ["token"] 1000 =
        .obj [("token", JsonValue.str "[REDACTED]")] from rfl]
    exact Occurs.refl _
  exact ⟨hocc, List.mem_cons_self .., rfl,
    cleanObject_redacts_matched_keys.2.1 ["token"] (.obj [("token", .str "tok123")]) 1000
      [("token", JsonValue.str "[REDACTED]")] "token" (JsonValue.str "[REDACTED]")
      hocc (List.mem_cons_self ..) rfl⟩

/-- C3: for a truthy object whose redacted, un-pretty-printed serialization
is longer than `maxSize`, `cleanObject` returns a string of length exactly
`maxSize` plus the length of `'... [TRUNCATED]'`, ending in that marker,
whose retained prefix is the first `maxSize` characters of the compact
(un-pretty-printed) serialization of the cleaned tree. -/
theorem cleanObject_truncation_law (fields : List (String × JsonValue))
    (rk : List String) (maxSize : Nat)
    (hbig : maxSize < (cser (applyRedact rk "" (.obj fields))).length) :
    ∃ s : String,
      cleanObject (.obj fields) rk maxSize = .str s ∧
      s.length = maxSize + truncationMarker.length ∧
      truncationMarker.toList <:+ s.toList ∧
      s = ((cser (applyRedact rk "" (.obj fields))).take maxSize).asString ++
        truncationMarker := by
  have hp : maxSize < (pser 0 (applyRedact rk "" (.obj fields))).length :=
    lt_of_lt_of_le hbig (cser_length_le_pser 0 _)
  have hco : cleanObject (.obj fields) rk maxSize =
      .str (((cser (applyRedact rk "" (.obj fields))).take maxSize).asString ++
        truncationMarker) := by
    rw [cleanObject_object (.obj fields) rk maxSize rfl rfl, if_pos hp]
  refine ⟨_, hco, ?_, ?_, rfl⟩
  · rw [String.length_append]
    have h1 : (((cser (applyRedact rk "" (.obj fields))).take maxSize).asString).length =
        ((cser (applyRedact rk "" (.obj fields))).take maxSize).length := rfl
    rw [h1, List.length_take]
    omega
  · rw [show (((cser (applyRedact rk "" (.obj fields))).take maxSize).asString ++
        truncationMarker).toList =
      ((cser (applyRedact rk "" (.obj fields))).take maxSize) ++ truncationMarker.toList from
      rfl]
    exact List.suffix_append _ _

/-- C3 witness: the truncation law applied at a concrete oversized object
(`{"a":"0123456789"}`, 18 compact characters, budget 5). -/
theorem cleanObject_truncation_law_witness :
    5 < (cser (applyRedact [] "" (.obj [("a", JsonValue.str "0123456789")]))).length ∧
    ∃ s : String,
      cleanObject (.obj [("a", JsonValue.str "0123456789")]) [] 5 = .str s ∧
      s.length = 5 + truncationMarker.length ∧
      truncationMarker.toList <:+ s.toList ∧
      s = ((cser (applyRedact [] "" (.obj [("a", JsonValue.str "0123456789")]))).take 5).asString ++
        truncationMarker :=
  ⟨by decide, cleanObject_truncation_law [("a", JsonValue.str "0123456789")] [] 5 (by decide)⟩

/-- C10: when the deny-list contains the empty string, the replacer fires
already at the root key `""` (every key contains the empty string as a
substring), so `cleanObject` on any object input returns the literal
string `[REDACTED]` (with the default `maxSize` of 1000 no truncation
occurs). -/
theorem cleanObject_empty_deny_entry (fields : List (String × JsonValue))
    (rk : List String) (h : "" ∈ rk) :
    cleanObject (.obj fields) rk 1000 = .str "[REDACTED]" := by
  have hk : keyMatches rk "" = true := by
    simp only [keyMatches, List.any_eq_true]
    exact ⟨"", h, by decide⟩
  rw [cleanObject_object (.obj fields) rk 1000 rfl rfl, applyRedact_matched rk "" _ hk]
  rfl

/-- C10 witness: the empty-deny-entry law applied at a concrete object. -/
theorem cleanObject_empty_deny_entry_witness :
    cleanObject (.obj [("user", JsonValue.str "ankit")]) [""] 1000 =
      .str "[REDACTED]" :=
  cleanObject_empty_deny_entry [("user", JsonValue.str "ankit")] [""] (by decide)

/-- Sine-derived round constants of MD5 (the algorithm behind Node's
`createHash('md5')` used on src/index.js line 71). -/
def md5K : List Nat := [
    3614090360, 3905402710, 606105819, 3250441966,
    4118548399, 1200080426, 2821735955, 4249261313,
    1770035416, 2336552879, 4294925233, 2304563134,
    1804603682, 4254626195, 2792965006, 1236535329,
    4129170786, 3225465664, 643717713, 3921069994,
    3593408605, 38016083, 3634488961, 3889429448,
    568446438, 3275163606, 4107603335, 1163531501,
    2850285829, 4243563512, 1735328473, 2368359562,
    4294588738, 2272392833, 1839030562, 4259657740,
    2763975236, 1272893353, 4139469664, 3200236656,
    681279174, 3936430074, 3572445317, 76029189,
    3654602809, 3873151461, 530742520, 3299628645,
    4096336452, 1126891415, 2878612391, 4237533241,
    1700485571, 2399980690, 4293915773, 2240044497,
    1873313359, 4264355552, 2734768916, 1309151649,
    4149444226, 3174756917, 718787259, 3951481745]

/-- Per-round left-rotation amounts of MD5. -/
def md5Shifts : List Nat := [
    7, 12, 17, 22, 7, 12, 17, 22,
    7, 12, 17, 22, 7, 12, 17, 22,
    5, 9, 14, 20, 5, 9, 14, 20,
    5, 9, 14, 20, 5, 9, 14, 20,
    4, 11, 16, 23, 4, 11, 16, 23,
    4, 11, 16, 23, 4, 11, 16, 23,
    6, 10, 15, 21, 6, 10, 15, 21,
    6, 10, 15, 21, 6, 10, 15, 21]

/-- Left rotation of a 32-bit word held in a `Nat`. -/
def rotl32 (x s : Nat) : Nat :=
  (x * 2 ^ s + x / 2 ^ (32 - s)) % 4294967296

/-- MD5 round function F (rounds 0-15). -/
def md5F (b c d : Nat) : Nat := (b &&& c) ||| ((4294967295 ^^^ b) &&& d)

/-- MD5 round function G (rounds 16-31). -/
def md5G (b c d : Nat) : Nat := (d &&& b) ||| ((4294967295 ^^^ d) &&& c)

/-- MD5 round function H (rounds 32-47). -/
def md5H (b c d : Nat) : Nat := b ^^^ c ^^^ d

/-- MD5 round function I (rounds 48-63). -/
def md5I (b c d : Nat) : Nat := c ^^^ (b ||| (4294967295 ^^^ d))

/-- The `g`-th little-endian 32-bit word of a 64-byte chunk. -/
def md5Word (chunk : List Nat) (g : Nat) : Nat :=
  chunk.getD (4 * g) 0 + 256 * chunk.getD (4 * g + 1) 0 +
    65536 * chunk.getD (4 * g + 2) 0 + 16777216 * chunk.getD (4 * g + 3) 0

/-- One of the 64 MD5 operations on the running state `(a, b, c, d)`. -/
def md5Step (chunk : List Nat) (st : Nat × Nat × Nat × Nat) (i : Nat) :
    Nat × Nat × Nat × Nat :=
  let f :=
    if i < 16 then md5F st.2.1 st.2.2.1 st.2.2.2
    else if i < 32 then md5G st.2.1 st.2.2.1 st.2.2.2
    else if i < 48 then md5H st.2.1 st.2.2.1 st.2.2.2
    else md5I st.2.1 st.2.2.1 st.2.2.2
  let g :=
    if i < 16 then i
    else if i < 32 then (5 * i + 1) % 16
    else if i < 48 then (3 * i + 5) % 16
    else (7 * i) % 16
  let tmp := (f + st.1 + md5K.getD i 0 + md5Word chunk g) % 4294967296
  (st.2.2.2, (st.2.1 + rotl32 tmp (md5Shifts.getD i 0)) % 4294967296, st.2.1, st.2.2.1)

/-- Compression of one 64-byte chunk into the MD5 state. -/
def md5Block (st : Nat × Nat × Nat × Nat) (chunk : List Nat) : Nat × Nat × Nat × Nat :=
  let r := (List.range 64).foldl (md5Step chunk) st
  ((st.1 + r.1) % 4294967296, (st.2.1 + r.2.1) % 4294967296,
    (st.2.2.1 + r.2.2.1) % 4294967296, (st.2.2.2 + r.2.2.2) % 4294967296)

/-- Folding the MD5 compression over a padded message, 64 bytes at a time;
`fuel` bounds the number of chunks (one byte of the message per unit of
fuel is ample) and keeps the recursion structural. -/
def md5ChunksF (st : Nat × Nat × Nat × Nat) : Nat → List Nat → Nat × Nat × Nat × Nat
  | _, [] => st
  | 0, _ :: _ => st
  | fuel + 1, b :: rest =>
    md5ChunksF (md5Block st ((b :: rest).take 64)) fuel ((b :: rest).drop 64)

/-- Folding the MD5 compression over a padded message, 64 bytes at a time. -/
def md5Chunks (st : Nat × Nat × Nat × Nat) (l : List Nat) : Nat × Nat × Nat × Nat :=
  md5ChunksF st l.length l

/-- MD5 padding: a `0x80` byte, zeros up to 56 mod 64, then the bit length
as a little-endian 64-bit number. -/
def md5Pad (msg : List Nat) : List Nat :=
  let bitLen := (8 * msg.length) % 18446744073709551616
  msg ++ 128 :: List.replicate ((119 - msg.length % 64) % 64) 0 ++
    [bitLen % 256, bitLen / 256 % 256, bitLen / 65536 % 256, bitLen / 16777216 % 256,
      bitLen / 4294967296 % 256, bitLen / 1099511627776 % 256,
      bitLen / 281474976710656 % 256, bitLen / 72057594037927936 % 256]

/-- The initial MD5 state. -/
def md5Init : Nat × Nat × Nat × Nat := (1732584193, 4023233417, 2562383102, 271733878)

/-- The four bytes of a 32-bit word, little-endian. -/
def wordLeBytes (w : Nat) : List Nat :=
  [w % 256, w / 256 % 256, w / 65536 % 256, w / 16777216 % 256]

/-- The sixteen digest bytes of a final MD5 state. -/
def md5DigestBytes (st : Nat × Nat × Nat × Nat) : List Nat :=
  wordLeBytes st.1 ++ wordLeBytes st.2.1 ++ wordLeBytes st.2.2.1 ++ wordLeBytes st.2.2.2

/-- Two lowercase hex digits of one byte. -/
def hexPair (b : Nat) : List Char :=
  [hexDigitChar (b / 16), hexDigitChar b]

/-- The lowercase hexadecimal MD5 digest of a byte message, as produced by
Node's `createHash('md5').update(text).digest('hex')`. -/
def md5HexChars (msg : List Nat) : List Char :=
  (md5DigestBytes (md5Chunks md5Init (md5Pad msg))).flatMap hexPair

/-- UTF-8 encoding of one character. -/
def utf8Bytes (c : Char) : List Nat :=
  let n := c.toNat
  if n < 128 then [n]
  else if n < 2048 then [192 + n / 64, 128 + n % 64]
  else if n < 65536 then [224 + n / 4096, 128 + n / 64 % 64, 128 + n % 64]
  else [240 + n / 262144, 128 + n / 4096 % 64, 128 + n / 64 % 64, 128 + n % 64]

/-- UTF-8 encoding of a character sequence (Node hashes strings as UTF-8). -/
def utf8Encode (cs : List Char) : List Nat :=
  cs.flatMap utf8Bytes

set_option maxRecDepth 4000 in
example : (md5HexChars (utf8Encode "abc".toList)).asString =
    "900150983cd24fb0d6963f7d28e17f72" := by decide

/-- JavaScript runtime values that can reach the `err` parameter of
`errorToMarkdown`: the JSON-like values plus `undefined`; `err` may also be
a plain object with arbitrary property values. -/
inductive JSVal where
  | undefined
  | null
  | bool (b : Bool)
  | num (n : Int)
  | str (s : String)
  | obj (fields : List (String × JSVal))
  deriving Repr

/-- The only runtime failure the engine can raise: a `TypeError` from a
property access or method call on an unsuitable receiver. -/
inductive JSErr where
  | typeError
  deriving Repr, DecidableEq

/-- Own-property read on a non-nullish value; primitives have none of the
properties the engine reads, so they yield `undefined` (prototype chains
are not modelled, following the spec's duck-typing design note). -/
def getPropD : JSVal → String → JSVal
  | .obj fields, k =>
    match fields.find? (fun kv => kv.1 == k) with
    | some kv => kv.2
    | none => .undefined
  | _, _ => .undefined

/-- JavaScript property access `v.k`: throws a `TypeError` on `null` or
`undefined`, otherwise reads the own property. -/
def getProp (v : JSVal) (k : String) : Except JSErr JSVal :=
  match v with
  | .undefined => .error .typeError
  | .null => .error .typeError
  | v => .ok (getPropD v k)

/-- JavaScript truthiness of a runtime value. -/
def jsvTruthy : JSVal → Bool
  | .undefined => false
  | .null => false
  | .bool b => b
  | .num n => n != 0
  | .str s => s != ""
  | .obj _ => true

/-- JavaScript `String(v)` for the values that reach template literals. -/
def jsvToString : JSVal → String
  | .undefined => "undefined"
  | .null => "null"
  | .bool true => "true"
  | .bool false => "false"
  | .num n => toString n
  | .str s => s
  | .obj _ => "[object Object]"

mutual
/-- The `JSON.stringify` view of a runtime value: `undefined` has no JSON
form (`none`), and object members whose value has no JSON form are
dropped. -/
def jsvalToJson : JSVal → Option JsonValue
  | .undefined => none
  | .null => some .null
  | .bool b => some (.bool b)
  | .num n => some (.num n)
  | .str s => some (.str s)
  | .obj fields => some (.obj (jsfieldsToJson fields))

/-- Member-list case of `jsvalToJson`. -/
def jsfieldsToJson : List (String × JSVal) → List (String × JsonValue)
  | [] => []
  | (k, v) :: rest =>
    match jsvalToJson v with
    | some j => (k, j) :: jsfieldsToJson rest
    | none => jsfieldsToJson rest
end

/-- The `req.connection` object (only `remoteAddress` is read). -/
structure Connection where
  remoteAddress : Option String := none
  deriving Repr

/-- The request context read by the engine; every field is optional
(`none` models an absent property, i.e. `undefined`).  Headers carry
string values, and body/query/params are JSON-like trees, per the
declared `ExpressRequest` interface. -/
structure Request where
  method : Option String := none
  originalUrl : Option String := none
  url : Option String := none
  ip : Option String := none
  connection : Option Connection := none
  headers : Option (List (String × String)) := none
  body : Option JsonValue := none
  query : Option JsonValue := none
  params : Option JsonValue := none
  deriving Repr

/-- JavaScript `a || b` for an optional string property `a` (`undefined`
and `''` are falsy). -/
def jsOrStr (a : Option String) (b : String) : String :=
  match a with
  | some s => if s = "" then b else s
  | none => b

/-- The fingerprint's request path, `req?.originalUrl || req?.url || ''`
(src/index.js line 67). -/
def requestUrl : Option Request → String
  | none => ""
  | some rq => jsOrStr rq.originalUrl (jsOrStr rq.url "")

/-- The fingerprint's request method, `req?.method || ''` (line 68). -/
def requestMethod : Option Request → String
  | none => ""
  | some rq => jsOrStr rq.method ""

/-- The fingerprint's first stack line,
`err.stack?.split('\n')[0] || ''` (line 66): nullish stacks yield `''`,
string stacks yield their first line, and any other stack value makes
`.split` throw a `TypeError`. -/
def stackFirstLine (stackV : JSVal) : Except JSErr String :=
  match stackV with
  | .undefined => .ok ""
  | .null => .ok ""
  | .str s => .ok ((jsSplitNl s).headD "")
  | _ => .error .typeError

/-- The `errorData` object of src/index.js lines 64-69, as the JSON tree
serialized by `JSON.stringify(errorData)`: key order `message`, `stack`,
`url`, `method`; a `message` that is `undefined` is dropped by
`JSON.stringify`. -/
def errorDataJson (message : JSVal) (stackLine url method : String) : JsonValue :=
  .obj
    ((match jsvalToJson message with
      | some j => [("message", j)]
      | none => []) ++
      [("stack", .str stackLine), ("url", .str url), ("method", .str method)])

/-- Translation of `generateErrorId(err, req)`, src/index.js lines 63-73:
the MD5 digest of `JSON.stringify(errorData)` (hashed as UTF-8), first 8
hex digits, uppercased, behind the literal tag `ERR-`.  Reading
`err.message` or `err.stack` throws a `TypeError` when `err` is nullish,
and `err.stack?.split` throws when the stack is neither nullish nor a
string. -/
def generateErrorId (err : JSVal) (req : Option Request) : Except JSErr String :=
  match getProp err "message" with
  | .error e => .error e
  | .ok message =>
    match getProp err "stack" with
    | .error e => .error e
    | .ok stackV =>
      match stackFirstLine stackV with
      | .error e => .error e
      | .ok stackLine =>
        .ok ("ERR-" ++
          (((md5HexChars (utf8Encode
              (cser (errorDataJson message stackLine (requestUrl req)
                (requestMethod req))))).take 8).map Char.toUpper).asString)

/-- Uppercase hexadecimal digits. -/
def isUpperHexDigit (c : Char) : Bool :=
  "0123456789ABCDEF".toList.contains c

/-- Uppercasing any lowercase hex digit produced by `hexDigitChar` yields
an uppercase hex digit. -/
theorem hexDigitChar_toUpper (n : Nat) : isUpperHexDigit (hexDigitChar n).toUpper = true := by
  have hlt : n % 16 < 16 := Nat.mod_lt _ (by norm_num)
  have hrw : hexDigitChar n = hexDigitChar (n % 16) := by
    simp only [hexDigitChar]
    congr 1
    omega
  rw [hrw]
  have hball : ∀ m, m < 16 → isUpperHexDigit (hexDigitChar m).toUpper = true := by decide
  exact hball (n % 16) hlt

/-- The MD5 hex digest always has 32 characters. -/
theorem md5HexChars_length (msg : List Nat) : (md5HexChars msg).length = 32 := by
  simp [md5HexChars, md5DigestBytes, wordLeBytes, hexPair]

/-- Every character of the MD5 hex digest is a (lowercase) hex digit whose
uppercase form is an uppercase hex digit. -/
theorem md5HexChars_upperHex (msg : List Nat) :
    ∀ c ∈ md5HexChars msg, isUpperHexDigit c.toUpper = true := by
  intro c hc
  rw [md5HexChars] at hc
  rcases List.mem_flatMap.mp hc with ⟨b, _, hcb⟩
  rcases List.mem_cons.mp hcb with rfl | h2
  · exact hexDigitChar_toUpper _
  · rcases List.mem_cons.mp h2 with rfl | h3
    · exact hexDigitChar_toUpper _
    · simp at h3

/-- C5: the fingerprint is a pure function of the canonical tuple
(message, first stack line, path, method): two calls whose inputs agree on
that tuple return the same string — regardless of any other error or
request fields; there is no input for randomness, time, or process
identity — and the result is the literal tag `ERR-` followed by the
uppercased 8-character prefix of the hex digest of a hash (MD5) of the
serialized tuple. -/
theorem generateErrorId_deterministic (e1 e2 : JSVal) (r1 r2 : Option Request)
    (m sv1 sv2 : JSVal) (sl : String)
    (hm1 : getProp e1 "message" = .ok m) (hm2 : getProp e2 "message" = .ok m)
    (hv1 : getProp e1 "stack" = .ok sv1) (hv2 : getProp e2 "stack" = .ok sv2)
    (hl1 : stackFirstLine sv1 = .ok sl) (hl2 : stackFirstLine sv2 = .ok sl)
    (hu : requestUrl r1 = requestUrl r2) (hme : requestMethod r1 = requestMethod r2) :
    generateErrorId e1 r1 = generateErrorId e2 r2 ∧
    ∃ hx : List Char,
      generateErrorId e1 r1 = .ok ("ERR-" ++ hx.asString) ∧
      hx.length = 8 ∧ ∀ c ∈ hx, isUpperHexDigit c = true := by
  simp only [generateErrorId, hm1, hv1, hl1, hm2, hv2, hl2, hu, hme]
  refine ⟨trivial, _, rfl, ?_, ?_⟩
  · simp [md5HexChars_length]
  · intro c hc
    rcases List.mem_map.mp hc with ⟨c', hc', rfl⟩
    exact md5HexChars_upperHex _ c' (List.take_subset _ _ hc')

/-- C5 witness: two errors that differ in extra fields (`name` vs `code`)
and in later stack lines, and two requests that differ in shape
(`originalUrl` vs the `url` fallback), but agree on the canonical tuple,
give the same fingerprint of the stated shape. -/
theorem generateErrorId_deterministic_witness :
    generateErrorId
        (.obj [("message", .str "boom"), ("stack", .str "Error: boom\n  at a.js:1:1"),
          ("name", .str "RangeError")])
        (some { originalUrl := some "/api/users", method := some "POST" }) =
      generateErrorId
        (.obj [("message", .str "boom"), ("stack", .str "Error: boom\n  at b.js:9:9"),
          ("code", .num 7)])
        (some { url := some "/api/users", method := some "POST" }) ∧
    ∃ hx : List Char,
      generateErrorId
          (.obj [("message", .str "boom"), ("stack", .str "Error: boom\n  at a.js:1:1"),
            ("name", .str "RangeError")])
          (some { originalUrl := some "/api/users", method := some "POST" }) =
        .ok ("ERR-" ++ hx.asString) ∧
      hx.length = 8 ∧ ∀ c ∈ hx, isUpperHexDigit c = true :=
  generateErrorId_deterministic
    (.obj [("message", .str "boom"), ("stack", .str "Error: boom\n  at a.js:1:1"),
      ("name", .str "RangeError")])
    (.obj [("message", .str "boom"), ("stack", .str "Error: boom\n  at b.js:9:9"),
      ("code", .num 7)])
    (some { originalUrl := some "/api/users", method := some "POST" })
    (some { url := some "/api/users", method := some "POST" })
    (.str "boom") (.str "Error: boom\n  at a.js:1:1") (.str "Error: boom\n  at b.js:9:9")
    "Error: boom" rfl rfl rfl rfl rfl rfl rfl rfl

/-- Display tokens of a theme (src/index.js lines 33-58). -/
structure Theme where
  title : String
  errorIcon : String
  stackIcon : String
  requestIcon : String
  envIcon : String
  separator : String
  deriving Repr, DecidableEq

/-- The built-in `github` theme (also the fallback). -/
def githubTheme : Theme :=
  { title := "## 🐛 Bug Report", errorIcon := "❌", stackIcon := "📋",
    requestIcon := "🌐", envIcon := "💻", separator := "---" }

/-- The built-in `slack` theme. -/
def slackTheme : Theme :=
  { title := "*🐛 Bug Report*", errorIcon := ":x:", stackIcon := ":clipboard:",
    requestIcon := ":globe_with_meridians:", envIcon := ":computer:", separator := "```" }

/-- The built-in `discord` theme. -/
def discordTheme : Theme :=
  { title := "## 🐛 Bug Report", errorIcon := "❌", stackIcon := "📋",
    requestIcon := "🌐", envIcon := "💻", separator := "```diff" }

/-- The theme registry object of src/index.js lines 33-58, as its list of
own properties in declaration order. -/
def themes : List (String × Theme) :=
  [("github", githubTheme), ("slack", slackTheme), ("discord", discordTheme)]

/-- Own-property lookup on a JS object literal used as a map.  Used only
for the fixed header name `user-agent`, which is not an
`Object.prototype` member, so prototype inheritance cannot fire on that
read and own-property lookup is exact there. -/
def assocLookup {α : Type} (m : List (String × α)) (k : String) : Option α :=
  match m.find? (fun kv => kv.1 == k) with
  | some kv => some kv.2
  | none => none

/-- The property names every plain object literal inherits from
`Object.prototype`; reading any of them through bracket access on a
literal with no own property of that name yields a truthy value — a
built-in function, or the prototype object itself for `__proto__`. -/
def objectProtoKeys : List String :=
  ["constructor", "hasOwnProperty", "isPrototypeOf", "propertyIsEnumerable",
   "toLocaleString", "toString", "valueOf", "__proto__",
   "__defineGetter__", "__defineSetter__", "__lookupGetter__", "__lookupSetter__"]

/-- Result of JavaScript bracket access `m[k]` on an object literal used
as a map: an own property's value, a truthy member inherited from
`Object.prototype`, or `undefined`. -/
inductive ProtoLookup (α : Type) where
  | own (a : α)
  | inherited (name : String)
  | missing
  deriving Repr, DecidableEq

/-- JavaScript bracket access on an object literal, prototype chain
included: own properties win, otherwise names on `Object.prototype`
deliver the inherited (truthy) member, and everything else is
`undefined`. -/
def jsLookup {α : Type} (m : List (String × α)) (k : String) : ProtoLookup α :=
  match m.find? (fun kv => kv.1 == k) with
  | some kv => .own kv.2
  | none => if objectProtoKeys.contains k then .inherited k else .missing

/-- What `themes[config.theme] || themes.github` can evaluate to: one of
the registered theme objects, or — for a name such as `toString` that the
literal inherits from `Object.prototype` — the inherited member itself,
which is truthy and therefore NOT replaced by the github fallback. -/
inductive ResolvedTheme where
  | theme (t : Theme)
  | protoMember (name : String)
  deriving Repr, DecidableEq

/-- Theme resolution of src/index.js line 140:
`themes[config.theme] || themes.github`.  An own match and an inherited
`Object.prototype` member are both truthy; only a genuinely absent name
(`undefined` being falsy) falls back to `themes.github`. -/
def resolveTheme (name : String) : ResolvedTheme :=
  match jsLookup themes name with
  | .own t => .theme t
  | .inherited n => .protoMember n
  | .missing => .theme githubTheme

/-- Reading the display tokens off a resolved theme.  An inherited
`Object.prototype` member (a built-in function, or the prototype itself
for `__proto__`) has none of the token properties, so every token read
yields `undefined`: the icon reads sit inside template literals, which
render `undefined` as the text `undefined`, while `theme.title` and
`theme.separator` are pushed directly and `md.join('\n')` renders an
`undefined` element as the empty string. -/
def themeTokens : ResolvedTheme → Theme
  | .theme t => t
  | .protoMember _ =>
    { title := "", errorIcon := "undefined", stackIcon := "undefined",
      requestIcon := "undefined", envIcon := "undefined", separator := "" }

/-- The severity map of `formatSeverity` (src/index.js lines 126-131). -/
def severityMap : List (String × String) :=
  [("info", "💡 INFO"), ("warning", "⚠️ WARNING"),
   ("error", "❌ ERROR"), ("critical", "🚨 CRITICAL")]

/-- What `severityMap[severity] || severityMap.error` can evaluate to: a
fixed label, or — for a severity naming an `Object.prototype` member —
the inherited truthy member, which suppresses the `error` fallback. -/
inductive SeverityText where
  | label (s : String)
  | protoMember (name : String)
  deriving Repr, DecidableEq

/-- Translation of `formatSeverity(severity)` (lines 125-133):
`severityMap[severity] || severityMap.error`.  The four labels and any
inherited `Object.prototype` member are truthy; only a genuinely absent
name falls through to `severityMap.error`. -/
def formatSeverity (severity : String) : SeverityText :=
  match jsLookup severityMap severity with
  | .own label => .label label
  | .inherited n => .protoMember n
  | .missing =>
    match assocLookup severityMap "error" with
    | some label => .label label
    | none => .label ""

/-- The text the severity template literal renders for the looked-up
value: a label prints itself; an inherited member is a built-in function
printed in its native-function form (`constructor` is the `Object`
constructor, so it prints under the name `Object`), and `__proto__` is
the prototype object itself, printed as `[object Object]`. -/
def severityText : SeverityText → String
  | .label s => s
  | .protoMember name =>
    if name = "__proto__" then "[object Object]"
    else if name = "constructor" then "function Object() \x7b [native code] \x7d"
    else "function " ++ name ++ "() \x7b [native code] \x7d"

/-- The recognized options (src/types.d.ts), each one optional: `none`
models a property the caller did not supply.  The `logger` and
`sendMarkdown` options only affect the middleware adapter, which is
outside the report builder. -/
structure Options where
  redact : Option (List String) := none
  includeEnvironment : Option Bool := none
  includeTimestamp : Option Bool := none
  includePerformance : Option Bool := none
  theme : Option String := none
  maxStackLines : Option Nat := none
  maxBodySize : Option Nat := none
  includeUserAgent : Option Bool := none
  includeMemoryUsage : Option Bool := none
  generateErrorId : Option Bool := none
  severity : Option String := none
  appVersion : Option String := none
  deriving Repr

/-- The effective configuration after the shallow merge of line 139. -/
structure Config where
  redact : List String
  includeEnvironment : Bool
  includeTimestamp : Bool
  includePerformance : Bool
  theme : String
  maxStackLines : Nat
  maxBodySize : Nat
  includeUserAgent : Bool
  includeMemoryUsage : Bool
  generateErrorId : Bool
  severity : String
  appVersion : Option String
  deriving Repr

/-- The `defaultOptions` object of src/index.js lines 16-28 (`appVersion`
is not among the defaults, i.e. absent). -/
def defaultOptions : Config :=
  { redact := ["password", "token", "key", "secret", "auth", "authorization", "cookie"],
    includeEnvironment := true, includeTimestamp := true, includePerformance := true,
    theme := "github", maxStackLines := 50, maxBodySize := 1000,
    includeUserAgent := true, includeMemoryUsage := true, generateErrorId := true,
    severity := "error", appVersion := none }

/-- The shallow merge `{ ...defaultOptions, ...options }` of line 139:
caller-supplied fields override the defaults field by field; nested
values (such as the redact list) are replaced, never deep-merged. -/
def mergeConfig (o : Options) : Config :=
  { redact := o.redact.getD defaultOptions.redact,
    includeEnvironment := o.includeEnvironment.getD defaultOptions.includeEnvironment,
    includeTimestamp := o.includeTimestamp.getD defaultOptions.includeTimestamp,
    includePerformance := o.includePerformance.getD defaultOptions.includePerformance,
    theme := o.theme.getD defaultOptions.theme,
    maxStackLines := o.maxStackLines.getD defaultOptions.maxStackLines,
    maxBodySize := o.maxBodySize.getD defaultOptions.maxBodySize,
    includeUserAgent := o.includeUserAgent.getD defaultOptions.includeUserAgent,
    includeMemoryUsage := o.includeMemoryUsage.getD defaultOptions.includeMemoryUsage,
    generateErrorId := o.generateErrorId.getD defaultOptions.generateErrorId,
    severity := o.severity.getD defaultOptions.severity,
    appVersion := o.appVersion }

/-- C8 counterexample: `toString` matches no registered theme, yet
`themes['toString']` is the truthy member the literal inherits from
`Object.prototype`, so `themes[name] || themes.github` does not fall
back: resolving `toString` yields the inherited member, not the `github`
theme and not what resolving no name at all yields. -/
theorem resolveTheme_inherited_no_fallback :
    jsLookup themes "toString" = .inherited "toString" ∧
    resolveTheme "toString" = .protoMember "toString" ∧
    resolveTheme "toString" ≠ .theme githubTheme ∧
    resolveTheme "toString" ≠ resolveTheme (mergeConfig {}).theme := by
  refine ⟨rfl, rfl, ?_, ?_⟩ <;> decide

/-- C8 (amended): theme resolution never throws: an exact-match name
returns that theme; a non-matching name that is not an
`Object.prototype` member name (including the absent-name default)
resolves to the `github` theme, so unknown-name fallback and absent-name
resolution coincide on such names; but a non-matching name inherited
from `Object.prototype` (such as `toString`) is truthy and is used as
the theme itself instead of the fallback — its display tokens all read
as `undefined`. -/
theorem resolveTheme_resolution :
    (∀ (n : String) (t : Theme), jsLookup themes n = .own t → resolveTheme n = .theme t) ∧
    (∀ n : String, jsLookup themes n = .missing →
      resolveTheme n = resolveTheme (mergeConfig {}).theme) ∧
    resolveTheme (mergeConfig {}).theme = .theme githubTheme ∧
    resolveTheme "github" = .theme githubTheme ∧
    resolveTheme "slack" = .theme slackTheme ∧
    resolveTheme "discord" = .theme discordTheme ∧
    (∀ n ∈ objectProtoKeys, resolveTheme n = .protoMember n ∧
      resolveTheme n ≠ .theme githubTheme ∧
      themeTokens (resolveTheme n) =
        { title := "", errorIcon := "undefined", stackIcon := "undefined",
          requestIcon := "undefined", envIcon := "undefined", separator := "" }) := by
  refine ⟨?_, ?_, rfl, rfl, rfl, rfl, by decide⟩
  · intro n t h
    simp [resolveTheme, h]
  · intro n h
    rw [show resolveTheme (mergeConfig {}).theme = .theme githubTheme from rfl]
    simp [resolveTheme, h]

/-- C8 witness: exact-match resolution at `slack`, fallback of a plain
unknown name agreeing with absent-name resolution, and the inherited
member at `valueOf`. -/
theorem resolveTheme_resolution_witness :
    resolveTheme "slack" = .theme slackTheme ∧
    resolveTheme "solarized" = resolveTheme (mergeConfig {}).theme ∧
    resolveTheme "valueOf" = .protoMember "valueOf" :=
  ⟨resolveTheme_resolution.1 "slack" slackTheme rfl,
   resolveTheme_resolution.2.1 "solarized" rfl,
   (resolveTheme_resolution.2.2.2.2.2.2 "valueOf" (by decide)).1⟩

/-- Every character list starts with itself. -/
theorem charsStartWith_refl (l : List Char) : charsStartWith l l = true := by
  induction l with
  | nil => rfl
  | cons c rest ih => simp [charsStartWith, ih]

/-- A character list is contained in anything that ends with it. -/
theorem charsContain_suffix (pre l : List Char) : charsContain l (pre ++ l) = true := by
  induction pre with
  | nil =>
    cases l with
    | nil => rfl
    | cons c cs => simp [charsContain, charsStartWith_refl]
  | cons c rest ih =>
    rw [List.cons_append]
    simp [charsContain, ih]

/-- The severity line of src/index.js line 155. -/
def severityLine (config : Config) : String :=
  "**Severity:** " ++ severityText (formatSeverity config.severity)

/-- C9 counterexample: `toString` is outside the fixed severity set, yet
`severityMap['toString']` is the truthy member the literal inherits from
`Object.prototype`, so `severityMap[severity] || severityMap.error` does
not fall back to the `error` label: the inherited member is emitted
instead. -/
theorem formatSeverity_inherited_no_fallback :
    ("toString" ∉ ["info", "warning", "error", "critical"]) ∧
    jsLookup severityMap "toString" = .inherited "toString" ∧
    formatSeverity "toString" = .protoMember "toString" ∧
    formatSeverity "toString" ≠ .label "❌ ERROR" := by
  refine ⟨by decide, rfl, rfl, by decide⟩

/-- C9 (amended): each of the four recognized severities maps to its
fixed label+icon; every other severity string that is not an
`Object.prototype` member name falls back to the `error` label; a
severity naming an inherited `Object.prototype` member (such as
`toString`) is truthy and is emitted itself instead of the fallback
label; the formatter never fails, and the emitted severity line contains
whatever text the lookup produced. -/
theorem formatSeverity_resolution :
    formatSeverity "info" = .label "💡 INFO" ∧
    formatSeverity "warning" = .label "⚠️ WARNING" ∧
    formatSeverity "error" = .label "❌ ERROR" ∧
    formatSeverity "critical" = .label "🚨 CRITICAL" ∧
    (∀ s : String, s ∉ ["info", "warning", "error", "critical"] →
      objectProtoKeys.contains s = false → formatSeverity s = .label "❌ ERROR") ∧
    (∀ s ∈ objectProtoKeys, formatSeverity s = .protoMember s ∧
      formatSeverity s ≠ .label "❌ ERROR") ∧
    (∀ config : Config,
      charsContain (severityText (formatSeverity config.severity)).toList
        (severityLine config).toList = true) := by
  refine ⟨rfl, rfl, rfl, rfl, ?_, by decide, ?_⟩
  · intro s hs hpk
    simp only [List.mem_cons, List.not_mem_nil, or_false, not_or] at hs
    obtain ⟨h1, h2, h3, h4⟩ := hs
    have e1 : ("info" == s) = false := beq_eq_false_iff_ne.mpr (Ne.symm h1)
    have e2 : ("warning" == s) = false := beq_eq_false_iff_ne.mpr (Ne.symm h2)
    have e3 : ("error" == s) = false := beq_eq_false_iff_ne.mpr (Ne.symm h3)
    have e4 : ("critical" == s) = false := beq_eq_false_iff_ne.mpr (Ne.symm h4)
    have hpk2 : s ∉ objectProtoKeys := by simpa using hpk
    simp [formatSeverity, jsLookup, assocLookup, severityMap, List.find?,
      e1, e2, e3, e4, hpk2]
  · intro config
    rw [show (severityLine config).toList =
        "**Severity:** ".toList ++ (severityText (formatSeverity config.severity)).toList
      from rfl]
    exact charsContain_suffix _ _

/-- C9 witness: the fallback applied at the plain unrecognized severity
`fatal`, and the inherited member at `valueOf`. -/
theorem formatSeverity_resolution_witness :
    formatSeverity "fatal" = .label "❌ ERROR" ∧
    formatSeverity "valueOf" = .protoMember "valueOf" :=
  ⟨formatSeverity_resolution.2.2.2.2.1 "fatal" (by decide) (by decide),
   (formatSeverity_resolution.2.2.2.2.2.1 "valueOf" (by decide)).1⟩

/-- Ambient readings embedded in a report: the wall-clock timestamp of
line 144, the process/platform identifiers of lines 231-233, the resource
counters read by `getPerformanceMetrics` (lines 102-120, with
`process.uptime()` already rounded to whole seconds), and the
`performance.now()` duration of line 252, supplied pre-formatted (it is a
float printed with `toFixed(2)`).  Passing these explicitly makes the
builder a pure function of its inputs. -/
structure Env where
  timestamp : String
  nodeVersion : String
  platform : String
  arch : String
  nodeEnv : Option String
  rssBytes : Nat
  heapUsedBytes : Nat
  heapTotalBytes : Nat
  externalBytes : Nat
  cpuUserMicros : Nat
  cpuSystemMicros : Nat
  uptimeSeconds : Nat
  genMs : String
  deriving Repr

/-- JavaScript `Math.round(a / b)` for natural `a` and positive `b`
(halves round up, as `Math.round` does). -/
def roundDiv (a b : Nat) : Nat :=
  (2 * a + b) / (2 * b)

/-- The metrics snapshot of `getPerformanceMetrics` (lines 102-120). -/
structure PerfMetrics where
  rss : String
  heapUsed : String
  heapTotal : String
  external : String
  cpuUser : String
  cpuSystem : String
  uptime : String
  deriving Repr

/-- Translation of `getPerformanceMetrics()` (lines 102-120): memory
figures in megabytes, CPU figures in milliseconds, uptime in seconds,
each suffixed with its unit. -/
def getPerformanceMetrics (env : Env) : PerfMetrics :=
  { rss := toString (roundDiv env.rssBytes 1048576) ++ "MB",
    heapUsed := toString (roundDiv env.heapUsedBytes 1048576) ++ "MB",
    heapTotal := toString (roundDiv env.heapTotalBytes 1048576) ++ "MB",
    external := toString (roundDiv env.externalBytes 1048576) ++ "MB",
    cpuUser := toString (roundDiv env.cpuUserMicros 1000) ++ "ms",
    cpuSystem := toString (roundDiv env.cpuSystemMicros 1000) ++ "ms",
    uptime := toString env.uptimeSeconds ++ "s" }

/-- JavaScript `Object.keys(v).length` for a JSON-like value: object keys,
array indices, string indices; other primitives have no enumerable keys. -/
def objKeysCount : JsonValue → Nat
  | .obj fields => fields.length
  | .arr elems => elems.length
  | .str s => s.length
  | _ => 0

/-- The stack-trace block of src/index.js lines 176-186 (the lines pushed
between and including the fences): the first `maxStackLines` lines of the
stack joined with newlines (the placeholder `No stack trace available`
when the stack is falsy), then the truncation marker exactly when the
stack is truthy and has more lines than the cap.  A truthy non-string
stack makes `.split` throw a `TypeError`. -/
def stackBlock (stackV : JSVal) (maxStackLines : Nat) : Except JSErr (List String) :=
  match stackV with
  | .str s =>
    if s = "" then
      .ok (["```",
        String.intercalate "\n" ((jsSplitNl "No stack trace available").take maxStackLines)] ++
        ["```"])
    else
      .ok (["```", String.intercalate "\n" ((jsSplitNl s).take maxStackLines)] ++
        (if maxStackLines < (jsSplitNl s).length then ["... [TRUNCATED]"] else []) ++ ["```"])
  | v =>
    if jsvTruthy v then .error .typeError
    else
      .ok (["```",
        String.intercalate "\n" ((jsSplitNl "No stack trace available").take maxStackLines)] ++
        ["```"])

/-- JavaScript `${o}` for an optional string property: an absent property
prints `undefined`. -/
def optShow (o : Option String) : String :=
  o.getD "undefined"

/-- `${req.originalUrl || req.url}` (line 192): `a || b` yields `b`
whenever `a` is falsy, and an absent `b` prints as `undefined`. -/
def urlShow (rq : Request) : String :=
  match rq.originalUrl with
  | some s => if s = "" then optShow rq.url else s
  | none => optShow rq.url

/-- `${req.ip || req.connection?.remoteAddress || 'unknown'}` (line 193). -/
def ipShow (rq : Request) : String :=
  jsOrStr rq.ip (jsOrStr (rq.connection.bind Connection.remoteAddress) "unknown")

/-- The user-agent line (lines 195-197), emitted when enabled and the
header is present and truthy. -/
def userAgentLines (config : Config) (headers : Option (List (String × String))) :
    List String :=
  if config.includeUserAgent then
    match headers with
    | none => []
    | some hs =>
      match assocLookup hs "user-agent" with
      | some ua => if ua = "" then [] else ["- **User Agent:** `" ++ ua ++ "`"]
      | none => []
  else []

/-- The `- **Body:**` block (lines 199-204): present only for a truthy
body with at least one enumerable key; the body goes through
`cleanObject` with the configured deny-list and the configured
`maxBodySize`, and the result is pretty-printed. -/
def bodySection (config : Config) (body : Option JsonValue) : List String :=
  match body with
  | none => []
  | some b =>
    if jsTruthy b && 0 < objKeysCount b then
      ["- **Body:**", "```json",
        (pser 0 (cleanObject b config.redact config.maxBodySize)).asString, "```"]
    else []

/-- The `- **Query Parameters:**` block (lines 206-211): the query goes
through `cleanObject` with the configured deny-list but with the
parameter default `maxSize = 1000` — the call site passes no third
argument. -/
def querySection (config : Config) (query : Option JsonValue) : List String :=
  match query with
  | none => []
  | some q =>
    if jsTruthy q && 0 < objKeysCount q then
      ["- **Query Parameters:**", "```json",
        (pser 0 (cleanObject q config.redact)).asString, "```"]
    else []

/-- The `- **Route Parameters:**` block (lines 213-218): pretty-printed
without any redaction. -/
def paramsSection (params : Option JsonValue) : List String :=
  match params with
  | none => []
  | some p =>
    if jsTruthy p && 0 < objKeysCount p then
      ["- **Route Parameters:**", "```json", (pser 0 p).asString, "```"]
    else []

/-- The headers block (lines 220-225), emitted unconditionally whenever a
request is present: absent headers make
`JSON.stringify(cleanObject(undefined, ...), null, 2)` evaluate to the
value `undefined`, which `md.join('\n')` renders as an empty string (the
fenced block is then empty). -/
def headersSection (config : Config) (headers : Option (List (String × String))) :
    List String :=
  ["- **Headers:**", "```json",
    (match headers with
     | some hs =>
       (pser 0 (cleanObject (.obj (hs.map fun kv => (kv.1, .str kv.2)))
         config.redact)).asString
     | none => ""),
    "```", ""]

/-- The request-details section (lines 189-226), emitted when a request is
supplied. -/
def requestSection (config : Config) (theme : Theme) (rq : Request) : List String :=
  [theme.requestIcon ++ " **Request Details:**",
   "- **Method:** `" ++ optShow rq.method ++ "`",
   "- **URL:** `" ++ urlShow rq ++ "`",
   "- **IP:** `" ++ ipShow rq ++ "`"] ++
  userAgentLines config rq.headers ++
  bodySection config rq.body ++
  querySection config rq.query ++
  paramsSection rq.params ++
  headersSection config rq.headers

/-- The environment section (lines 229-247). -/
def environmentSection (config : Config) (theme : Theme) (env : Env) : List String :=
  if config.includeEnvironment then
    [theme.envIcon ++ " **Environment:**",
     "- **Node.js Version:** `" ++ env.nodeVersion ++ "`",
     "- **Platform:** `" ++ env.platform ++ " " ++ env.arch ++ "`",
     "- **Environment:** `" ++ jsOrStr env.nodeEnv "development" ++ "`"] ++
    (match config.appVersion with
     | some v => if v = "" then [] else ["- **App Version:** `" ++ v ++ "`"]
     | none => []) ++
    (if config.includeMemoryUsage then
      ["- **Memory Usage:** RSS: `" ++ (getPerformanceMetrics env).rss ++ "`, Heap: `" ++
        (getPerformanceMetrics env).heapUsed ++ "/" ++
        (getPerformanceMetrics env).heapTotal ++ "`",
       "- **CPU Usage:** User: `" ++ (getPerformanceMetrics env).cpuUser ++ "`, System: `" ++
        (getPerformanceMetrics env).cpuSystem ++ "`",
       "- **Process Uptime:** `" ++ (getPerformanceMetrics env).uptime ++ "`"]
    else []) ++ [""]
  else []

/-- The error-id computation of line 143: run `generateErrorId` only when
enabled. -/
def errorIdResult (config : Config) (err : JSVal) (req : Option Request) :
    Except JSErr (Option String) :=
  if config.generateErrorId then
    match generateErrorId err req with
    | .error e => .error e
    | .ok gid => .ok (some gid)
  else .ok none

/-- Translation of `errorToMarkdown(err, req, options)` (src/index.js
lines 138-261) against an explicit environment.  The `Except` layer
carries the only runtime failures reachable from partial input: a
property read on a nullish `err` (first hit inside `generateErrorId`, or
at the `err.message` read when the id is disabled) and `.split` on a
truthy non-string stack.  All reads of `err` happen before any output is
assembled; since every failure is the same `TypeError`, this ordering is
observationally the same as the source's interleaving. -/
def errorToMarkdown (err : JSVal) (req : Option Request) (options : Options)
    (env : Env) : Except JSErr String :=
  let config := mergeConfig options
  let theme := themeTokens (resolveTheme config.theme)
  match errorIdResult config err req with
  | .error e => .error e
  | .ok errorId =>
    match getProp err "message" with
    | .error e => .error e
    | .ok messageV =>
      match getProp err "name" with
      | .error e => .error e
      | .ok nameV =>
        match getProp err "code" with
        | .error e => .error e
        | .ok codeV =>
          match getProp err "stack" with
          | .error e => .error e
          | .ok stackV =>
            match stackBlock stackV config.maxStackLines with
            | .error e => .error e
            | .ok stackLines =>
              .ok (String.intercalate "\n"
                ([theme.title] ++
                 (match errorId with
                  | some id => ["**Error ID:** `" ++ id ++ "`"]
                  | none => []) ++
                 (if config.includeTimestamp then
                    ["**Timestamp:** `" ++ env.timestamp ++ "`"]
                  else []) ++
                 ["", severityLine config, "",
                  theme.errorIcon ++ " **Error Message:**",
                  "```\n" ++
                    (if jsvTruthy messageV then jsvToString messageV
                     else "Unknown Error") ++ "\n```",
                  ""] ++
                 (if jsvTruthy nameV &&
                     !(match nameV with | .str s => s == "Error" | _ => false) then
                    ["**Error Type:** `" ++ jsvToString nameV ++ "`", ""]
                  else []) ++
                 (if jsvTruthy codeV then
                    ["**Error Code:** `" ++ jsvToString codeV ++ "`", ""]
                  else []) ++
                 [theme.stackIcon ++ " **Stack Trace:**"] ++
                 stackLines ++ [""] ++
                 (match req with
                  | some rq => requestSection config theme rq
                  | none => []) ++
                 environmentSection config theme env ++
                 (if config.includePerformance then
                    ["⚡ **Report Generation Time:** `" ++ env.genMs ++ "ms`", ""]
                  else []) ++
                 [theme.separator,
                  "*Generated by [error-to-md](https://github.com/imankii01/error-to-md) 🚀*"]))

/-- A concrete environment for closed instances. -/
def sampleEnv : Env :=
  { timestamp := "2026-01-01T00:00:00.000Z", nodeVersion := "v18.19.0",
    platform := "linux", arch := "x64", nodeEnv := none,
    rssBytes := 52428800, heapUsedBytes := 10485760, heapTotalBytes := 20971520,
    externalBytes := 1048576, cpuUserMicros := 120000, cpuSystemMicros := 30000,
    uptimeSeconds := 42, genMs := "0.42" }

/-- Property reads on a non-nullish receiver never throw. -/
theorem getProp_ok {err : JSVal} (h1 : err ≠ .undefined) (h2 : err ≠ .null) (k : String) :
    getProp err k = .ok (getPropD err k) := by
  cases err with
  | undefined => exact absurd rfl h1
  | null => exact absurd rfl h2
  | bool b => rfl
  | num n => rfl
  | str s => rfl
  | obj fields => rfl

/-- C1 counterexample: `errorToMarkdown(null)` (or `undefined`) throws a
`TypeError` — the first `err.message` read happens on a nullish receiver
— both with the default configuration (inside `generateErrorId`) and with
id generation disabled (at the direct message read), instead of returning
a string as the claim states for every error input including null. -/
theorem errorToMarkdown_null_throws :
    errorToMarkdown .null none {} sampleEnv = .error .typeError ∧
    errorToMarkdown .null none { generateErrorId := some false } sampleEnv =
      .error .typeError ∧
    errorToMarkdown .undefined none {} sampleEnv = .error .typeError :=
  ⟨rfl, rfl, rfl⟩

/-- C1 (amended): for every error input that is not nullish and whose
`stack` property is nullish or a string — in particular for every
non-object error such as a plain string, whose property reads all yield
`undefined` — and for every combination of absent optional
request/config fields, `errorToMarkdown` returns a string and never
throws; missing fields are treated as absent.  (A nullish error throws a
`TypeError`, and a truthy non-string stack throws at `.split`.) -/
theorem errorToMarkdown_total (err : JSVal) (req : Option Request) (options : Options)
    (env : Env) (h1 : err ≠ .undefined) (h2 : err ≠ .null)
    (hstack : getPropD err "stack" = .undefined ∨ getPropD err "stack" = .null ∨
      ∃ s, getPropD err "stack" = .str s) :
    ∃ out, errorToMarkdown err req options env = .ok out := by
  have hm := getProp_ok h1 h2 "message"
  have hn := getProp_ok h1 h2 "name"
  have hc := getProp_ok h1 h2 "code"
  have hs := getProp_ok h1 h2 "stack"
  have hfl : ∃ sl, stackFirstLine (getPropD err "stack") = .ok sl := by
    rcases hstack with h | h | ⟨s, h⟩ <;> rw [h]
    · exact ⟨"", rfl⟩
    · exact ⟨"", rfl⟩
    · exact ⟨_, rfl⟩
  obtain ⟨sl, hsl⟩ := hfl
  have hgen : ∃ gid, generateErrorId err req = .ok gid := by
    simp only [generateErrorId, hm, hs, hsl]
    exact ⟨_, rfl⟩
  obtain ⟨gid, hgid⟩ := hgen
  have hei : ∃ oid, errorIdResult (mergeConfig options) err req = .ok oid := by
    rw [errorIdResult]
    split
    · rw [hgid]
      exact ⟨_, rfl⟩
    · exact ⟨_, rfl⟩
  obtain ⟨oid, hoid⟩ := hei
  have hsb : ∃ lines,
      stackBlock (getPropD err "stack") (mergeConfig options).maxStackLines = .ok lines := by
    rcases hstack with h | h | ⟨s, h⟩ <;> rw [h]
    · exact ⟨_, rfl⟩
    · exact ⟨_, rfl⟩
    · simp only [stackBlock]
      split
      · exact ⟨_, rfl⟩
      · exact ⟨_, rfl⟩
  obtain ⟨lines, hlines⟩ := hsb
  simp only [errorToMarkdown, hoid, hm, hn, hc, hs, hlines]
  exact ⟨_, rfl⟩

/-- C1 witness: the amended totality applied at a plain string error (a
non-object), no request, and no options. -/
theorem errorToMarkdown_total_witness :
    (JSVal.str "oops" ≠ JSVal.undefined) ∧ (JSVal.str "oops" ≠ JSVal.null) ∧
    ∃ out, errorToMarkdown (.str "oops") none {} sampleEnv = .ok out :=
  ⟨(fun h => nomatch h),
   (fun h => nomatch h),
   errorToMarkdown_total (.str "oops") none {} sampleEnv (fun h => nomatch h)
     (fun h => nomatch h) (Or.inl rfl)⟩

set_option maxRecDepth 8000 in
/-- C7: for a non-empty string stack, the emitted stack block fences the
first `maxStackLines` lines, carries the truncation marker inside the
fenced block exactly when the stack has more lines than the cap, and never
shows more than `maxStackLines` stack lines; a falsy stack yields the
placeholder block without a marker; and a 60-line stack with the cap 50
yields exactly the first 50 lines followed by the marker. -/
theorem stackBlock_spec (s : String) (cap : Nat) (hne : s ≠ "") :
    stackBlock (.str s) cap =
      .ok (["```", String.intercalate "\n" ((jsSplitNl s).take cap)] ++
        (if cap < (jsSplitNl s).length then ["... [TRUNCATED]"] else []) ++ ["```"]) ∧
    ((jsSplitNl s).take cap).length ≤ cap ∧
    (∀ v : JSVal, jsvTruthy v = false →
      stackBlock v cap =
        .ok (["```",
          String.intercalate "\n" ((jsSplitNl "No stack trace available").take cap)] ++
          ["```"])) ∧
    stackBlock (.str (String.intercalate "\n" (List.replicate 60 "  at frame"))) 50 =
      .ok ["```", String.intercalate "\n" (List.replicate 50 "  at frame"),
        "... [TRUNCATED]", "```"] ∧
    (List.replicate 50 "  at frame").length = 50 := by
  refine ⟨?_, ?_, ?_, ?_, by simp⟩
  · simp [stackBlock, hne]
  · rw [List.length_take]
    exact Nat.min_le_left _ _
  · intro v hv
    cases v with
    | undefined => rfl
    | null => rfl
    | bool b =>
      simp only [jsvTruthy] at hv
      subst hv
      rfl
    | num n =>
      simp only [jsvTruthy] at hv
      simp [stackBlock, jsvTruthy, hv]
    | str s' =>
      simp only [jsvTruthy, bne_eq_false_iff_eq] at hv
      subst hv
      rfl
    | obj fields => simp [jsvTruthy] at hv
  · rfl

/-- C7 witness: the stack-block law applied at a concrete three-line
stack with the cap 2. -/
theorem stackBlock_spec_witness :
    stackBlock (.str "L1\nL2\nL3") 2 = .ok ["```", "L1\nL2", "... [TRUNCATED]", "```"] := by
  rw [(stackBlock_spec "L1\nL2\nL3" 2 (by decide)).1]
  rfl

/-- Follows the words of the spec (§4.5 step 11) for comparison with the
source's `querySection`, not the source itself: the claim states that the
query parameters go through the Redactor with the configured deny-list
and the configured size cap `maxBodySize`. -/
def querySectionSpec (config : Config) (query : Option JsonValue) : List String :=
  match query with
  | none => []
  | some q =>
    if jsTruthy q && 0 < objKeysCount q then
      ["- **Query Parameters:**", "```json",
        (pser 0 (cleanObject q config.redact config.maxBodySize)).asString, "```"]
    else []

/-- C4 counterexample: with `maxBodySize := 5` and a query of 18 compact
characters, the emitted query block is not the one the claim describes —
the source's call `cleanObject(req.query, config.redact)` does not pass
the configured cap, so the query is cleaned with the parameter default
1000 and is not truncated, while the claimed block would be truncated at
5 characters. -/
theorem querySection_ignores_configured_cap :
    querySection (mergeConfig { maxBodySize := some 5 })
        (some (.obj [("q", .str "0123456789")])) ≠
      querySectionSpec (mergeConfig { maxBodySize := some 5 })
        (some (.obj [("q", .str "0123456789")])) := by
  decide

/-- C4 (amended): when a request context is supplied, the builder passes
the body through the Redactor with the configured deny-list and the
configured `maxBodySize`, passes the query through the Redactor with the
configured deny-list but the default size cap 1000 (the configured cap is
not forwarded), and emits route parameters without redaction; the query
block therefore matches the spec's description only with the cap replaced
by 1000. -/
theorem requestSection_redaction (config : Config) (theme : Theme) (rq : Request)
    (b q p : JsonValue)
    (hb : rq.body = some b) (htb : jsTruthy b = true) (hkb : 0 < objKeysCount b)
    (hq : rq.query = some q) (htq : jsTruthy q = true) (hkq : 0 < objKeysCount q)
    (hp : rq.params = some p) (htp : jsTruthy p = true) (hkp : 0 < objKeysCount p) :
    requestSection config theme rq =
      [theme.requestIcon ++ " **Request Details:**",
       "- **Method:** `" ++ optShow rq.method ++ "`",
       "- **URL:** `" ++ urlShow rq ++ "`",
       "- **IP:** `" ++ ipShow rq ++ "`"] ++
      userAgentLines config rq.headers ++
      ["- **Body:**", "```json",
        (pser 0 (cleanObject b config.redact config.maxBodySize)).asString, "```"] ++
      ["- **Query Parameters:**", "```json",
        (pser 0 (cleanObject q config.redact 1000)).asString, "```"] ++
      ["- **Route Parameters:**", "```json", (pser 0 p).asString, "```"] ++
      headersSection config rq.headers ∧
    querySection config rq.query =
      querySectionSpec { config with maxBodySize := 1000 } rq.query := by
  have hb' : bodySection config rq.body =
      ["- **Body:**", "```json",
        (pser 0 (cleanObject b config.redact config.maxBodySize)).asString, "```"] := by
    rw [hb]
    simp [bodySection, htb, hkb]
  have hq' : querySection config rq.query =
      ["- **Query Parameters:**", "```json",
        (pser 0 (cleanObject q config.redact 1000)).asString, "```"] := by
    rw [hq]
    simp [querySection, htq, hkq]
  have hp' : paramsSection rq.params =
      ["- **Route Parameters:**", "```json", (pser 0 p).asString, "```"] := by
    rw [hp]
    simp [paramsSection, htp, hkp]
  constructor
  · rw [requestSection, hb', hq', hp']
  · rw [hq', hq]
    simp [querySectionSpec, htq, hkq]

/-- C4 witness: the redaction routing applied at a concrete request
holding a body, a query and route parameters, under a configuration with
a non-default `maxBodySize`. -/
theorem requestSection_redaction_witness :
    requestSection (mergeConfig { maxBodySize := some 5 }) githubTheme
        { body := some (.obj [("password", .str "secret123")]),
          query := some (.obj [("q", .str "0123456789")]),
          params := some (.obj [("id", .str "12345")]) } =
      [githubTheme.requestIcon ++ " **Request Details:**",
       "- **Method:** `" ++
         optShow (Request.method
           { body := some (.obj [("password", .str "secret123")]),
             query := some (.obj [("q", .str "0123456789")]),
             params := some (.obj [("id", .str "12345")]) }) ++ "`",
       "- **URL:** `" ++
         urlShow
           { body := some (.obj [("password", .str "secret123")]),
             query := some (.obj [("q", .str "0123456789")]),
             params := some (.obj [("id", .str "12345")]) } ++ "`",
       "- **IP:** `" ++
         ipShow
           { body := some (.obj [("password", .str "secret123")]),
             query := some (.obj [("q", .str "0123456789")]),
             params := some (.obj [("id", .str "12345")]) } ++ "`"] ++
      userAgentLines (mergeConfig { maxBodySize := some 5 }) none ++
      ["- **Body:**", "```json",
        (pser 0 (cleanObject (.obj [("password", .str "secret123")])
          (mergeConfig { maxBodySize := some 5 }).redact
          (mergeConfig { maxBodySize := some 5 }).maxBodySize)).asString, "```"] ++
      ["- **Query Parameters:**", "```json",
        (pser 0 (cleanObject (.obj [("q", .str "0123456789")])
          (mergeConfig { maxBodySize := some 5 }).redact 1000)).asString, "```"] ++
      ["- **Route Parameters:**", "```json",
        (pser 0 (.obj [("id", .str "12345")])).asString, "```"] ++
      headersSection (mergeConfig { maxBodySize := some 5 }) none ∧
    querySection (mergeConfig { maxBodySize := some 5 })
        (some (.obj [("q", .str "0123456789")])) =
      querySectionSpec
        { mergeConfig { maxBodySize := some 5 } with maxBodySize := 1000 }
        (some (.obj [("q", .str "0123456789")])) :=
  requestSection_redaction (mergeConfig { maxBodySize := some 5 }) githubTheme
    { body := some (.obj [("password", .str "secret123")]),
      query := some (.obj [("q", .str "0123456789")]),
      params := some (.obj [("id", .str "12345")]) }
    (.obj [("password", .str "secret123")]) (.obj [("q", .str "0123456789")])
    (.obj [("id", .str "12345")])
    rfl rfl (by decide) rfl rfl (by decide) rfl rfl (by decide)

/-- A node of the caller's mutable object graph: arrays and objects hold
references (indices into the heap); scalars are stored as nodes too so
that every JavaScript value a request field can hold has an address. -/
inductive JSNode where
  | null
  | bool (b : Bool)
  | num (n : Int)
  | str (s : String)
  | arr (refs : List Nat)
  | obj (fields : List (String × Nat))
  deriving Repr

/-- The caller's heap: node `r` is `h.get? r`. -/
def Heap : Type := List JSNode

/-- Reading the value graph below reference `r` — the pure traversal that
`JSON.stringify` performs.  `fuel` bounds the depth; the spec's design
note assumes the input graph is acyclic, for which a fuel of `h.length`
always suffices. -/
def readVal (h : List JSNode) : Nat → Nat → JsonValue
  | 0, _ => .null
  | fuel + 1, r =>
    match h.get? r with
    | some .null => .null
    | some (.bool b) => .bool b
    | some (.num n) => .num n
    | some (.str s) => .str s
    | some (.arr rs) => .arr (rs.map fun r' => readVal h fuel r')
    | some (.obj fs) => .obj (fs.map fun kr => (kr.1, readVal h fuel kr.2))
    | none => .null

mutual
/-- Allocation of a fresh tree for a JSON value — what `JSON.parse` does:
nodes are appended to the heap, children first; returns the extended heap
and the root reference. -/
def writeVal (h : List JSNode) : JsonValue → List JSNode × Nat
  | .null => (h ++ [.null], h.length)
  | .bool b => (h ++ [.bool b], h.length)
  | .num n => (h ++ [.num n], h.length)
  | .str s => (h ++ [.str s], h.length)
  | .arr xs =>
    let p := writeElems h xs
    (p.1 ++ [.arr p.2], p.1.length)
  | .obj fs =>
    let p := writeFields h fs
    (p.1 ++ [.obj p.2], p.1.length)

/-- Element allocation for `writeVal`. -/
def writeElems (h : List JSNode) : List JsonValue → List JSNode × List Nat
  | [] => (h, [])
  | v :: vs =>
    let p := writeVal h v
    let q := writeElems p.1 vs
    (q.1, p.2 :: q.2)

/-- Member allocation for `writeVal`. -/
def writeFields (h : List JSNode) : List (String × JsonValue) →
    List JSNode × List (String × Nat)
  | [] => (h, [])
  | (k, v) :: fs =>
    let p := writeVal h v
    let q := writeFields p.1 fs
    (q.1, (k, p.2) :: q.2)
end

/-- The result of the store-level `cleanObject`: a reference into the heap
(an object result) or a primitive value, which has no identity in
JavaScript. -/
inductive JSResult where
  | ref (r : Nat)
  | prim (v : JsonValue)
  deriving Repr

/-- Store-level model of `cleanObject` (src/index.js lines 78-97) against
the caller's object graph: a falsy or non-object argument is returned as
is (same reference, heap untouched); otherwise
`JSON.stringify(obj, replacer)` performs a pure read of the graph and
produces text, and `JSON.parse` of that text allocates an entirely fresh
tree for the cleaned value; the truncated case returns a string
primitive.  The heap is never written in place, only extended by the
fresh allocation. -/
def cleanObjectS (h : List JSNode) (r : Nat) (redactKeys : List String) (maxSize : Nat) :
    List JSNode × JSResult :=
  let v := readVal h (h.length + 1) r
  if !jsTruthy v || !isObjectType v then (h, .ref r)
  else
    let cleaned := applyRedact redactKeys "" v
    let jsonString := pser 0 cleaned
    if jsonString.length > maxSize then
      (h, .prim (.str (((cser cleaned).take maxSize).asString ++ truncationMarker)))
    else
      let p := writeVal h cleaned
      (p.1, .ref p.2)

mutual
/-- Allocation only appends to the heap. -/
theorem writeVal_extends (h : List JSNode) :
    ∀ (v : JsonValue), ∃ d, (writeVal h v).1 = h ++ d
  | .null => ⟨[.null], rfl⟩
  | .bool b => ⟨[.bool b], rfl⟩
  | .num n => ⟨[.num n], rfl⟩
  | .str s => ⟨[.str s], rfl⟩
  | .arr xs => by
    obtain ⟨d1, h1⟩ := writeElems_extends h xs
    refine ⟨d1 ++ [.arr (writeElems h xs).2], ?_⟩
    rw [show (writeVal h (.arr xs)).1 = (writeElems h xs).1 ++ [.arr (writeElems h xs).2]
      from rfl, h1, List.append_assoc]
  | .obj fs => by
    obtain ⟨d1, h1⟩ := writeFields_extends h fs
    refine ⟨d1 ++ [.obj (writeFields h fs).2], ?_⟩
    rw [show (writeVal h (.obj fs)).1 = (writeFields h fs).1 ++ [.obj (writeFields h fs).2]
      from rfl, h1, List.append_assoc]
termination_by v => sizeOf v

/-- Element allocation only appends to the heap. -/
theorem writeElems_extends (h : List JSNode) :
    ∀ (l : List JsonValue), ∃ d, (writeElems h l).1 = h ++ d
  | [] => ⟨[], by simp [writeElems]⟩
  | v :: vs => by
    obtain ⟨d1, h1⟩ := writeVal_extends h v
    obtain ⟨d2, h2⟩ := writeElems_extends (writeVal h v).1 vs
    refine ⟨d1 ++ d2, ?_⟩
    rw [show (writeElems h (v :: vs)).1 = (writeElems (writeVal h v).1 vs).1 from rfl,
      h2, h1, List.append_assoc]
termination_by l => sizeOf l

/-- Member allocation only appends to the heap. -/
theorem writeFields_extends (h : List JSNode) :
    ∀ (l : List (String × JsonValue)), ∃ d, (writeFields h l).1 = h ++ d
  | [] => ⟨[], by simp [writeFields]⟩
  | (k, v) :: fs => by
    obtain ⟨d1, h1⟩ := writeVal_extends h v
    obtain ⟨d2, h2⟩ := writeFields_extends (writeVal h v).1 fs
    refine ⟨d1 ++ d2, ?_⟩
    rw [show (writeFields h ((k, v) :: fs)).1 = (writeFields (writeVal h v).1 fs).1 from rfl,
      h2, h1, List.append_assoc]
termination_by l => sizeOf l
end

/-- The root of a fresh allocation lies outside the original heap. -/
theorem writeVal_fresh (h : List JSNode) (v : JsonValue) :
    h.length ≤ (writeVal h v).2 := by
  cases v with
  | null => exact le_refl _
  | bool b => exact le_refl _
  | num n => exact le_refl _
  | str s => exact le_refl _
  | arr xs =>
    obtain ⟨d, hd⟩ := writeElems_extends h xs
    rw [show (writeVal h (.arr xs)).2 = (writeElems h xs).1.length from rfl, hd]
    simp
  | obj fs =>
    obtain ⟨d, hd⟩ := writeFields_extends h fs
    rw [show (writeVal h (.obj fs)).2 = (writeFields h fs).1.length from rfl, hd]
    simp

/-- C6: the Redactor has no side effect on the caller's objects: after
`cleanObjectS` the heap agrees with the original heap on every
pre-existing reference (the cleaned tree is only ever appended), and the
returned structure is either the untouched input reference together with
an unchanged heap (non-object input), a primitive string together with an
unchanged heap (truncated case), or a freshly allocated root whose
reference lies entirely outside the caller's graph — the returned
structure shares no node with the input. -/
theorem cleanObjectS_no_mutation (h : List JSNode) (r : Nat) (rk : List String)
    (n : Nat) (i : Nat) (hi : i < h.length) :
    (cleanObjectS h r rk n).1.get? i = h.get? i ∧
    (((cleanObjectS h r rk n).1 = h ∧
        ((cleanObjectS h r rk n).2 = .ref r ∨
          ∃ s, (cleanObjectS h r rk n).2 = .prim (.str s))) ∨
      ∃ r', (cleanObjectS h r rk n).2 = .ref r' ∧ h.length ≤ r') := by
  rw [cleanObjectS]
  split
  · exact ⟨rfl, Or.inl ⟨rfl, Or.inl rfl⟩⟩
  · dsimp only
    split
    · exact ⟨rfl, Or.inl ⟨rfl, Or.inr ⟨_, rfl⟩⟩⟩
    · constructor
      · obtain ⟨d, hd⟩ := writeVal_extends h
          (applyRedact rk "" (readVal h (h.length + 1) r))
        rw [hd]
        simp [List.getElem?_append_left hi]
      · exact Or.inr ⟨_, rfl, writeVal_fresh h _⟩

/-- C6 witness: the frame property applied at a concrete two-node heap
holding `{password: "secret"}`. -/
theorem cleanObjectS_no_mutation_witness :
    0 < ([.str "secret", .obj [("password", 0)]] : List JSNode).length ∧
    ((cleanObjectS [.str "secret", .obj [("password", 0)]] 1 ["password"] 1000).1.get? 0 =
        ([.str "secret", .obj [("password", 0)]] : List JSNode).get? 0 ∧
      (((cleanObjectS [.str "secret", .obj [("password", 0)]] 1 ["password"] 1000).1 =
          [.str "secret", .obj [("password", 0)]] ∧
          ((cleanObjectS [.str "secret", .obj [("password", 0)]] 1 ["password"] 1000).2 =
              .ref 1 ∨
            ∃ s, (cleanObjectS [.str "secret", .obj [("password", 0)]] 1
                ["password"] 1000).2 = .prim (.str s))) ∨
        ∃ r', (cleanObjectS [.str "secret", .obj [("password", 0)]] 1
            ["password"] 1000).2 = .ref r' ∧
          ([.str "secret", .obj [("password", 0)]] : List JSNode).length ≤ r')) :=
  ⟨by decide,
   cleanObjectS_no_mutation [.str "secret", .obj [("password", 0)]] 1 ["password"] 1000 0
     (by decide)⟩

end ErrorToMd
